import Mathlib

/-!
# Verification of the cooperative-platformer game server (`src/index.js`)

A shallow embedding of the server's per-room data model and simulation
engine over exact rationals (`ℚ` stands for the JavaScript number line;
the separate `JSNum` type is used where IEEE non-finite values matter).
Every definition mirrors the corresponding function of `src/index.js`;
theorems at the end settle the specification claims.
-/
/-! ## Constants (`src/index.js` lines 92–114) -/
/-- `BASE_PHYSICS.gravity`. -/
def BASE_GRAVITY : ℚ := 6/10

/-- `BASE_PHYSICS.moveSpeed`. -/
def BASE_MOVE_SPEED : ℚ := 5

/-- `BASE_PHYSICS.jumpForce`. -/
def BASE_JUMP_FORCE : ℚ := -14

/-- `BASE_PHYSICS.maxFallSpeed`. -/
def BASE_MAX_FALL_SPEED : ℚ := 18

/-- `BASE_PHYSICS.friction`. -/
def BASE_FRICTION : ℚ := 85/100

/-- `PLAYER_WIDTH`. -/
def PLAYER_WIDTH : ℚ := 45

/-- `PLAYER_HEIGHT`. -/
def PLAYER_HEIGHT : ℚ := 55

/-- `WORLD1_BASE_Y`. -/
def WORLD1_BASE_Y : ℚ := 620

/-- `WORLD2_BASE_Y` (env default 820). -/
def WORLD2_BASE_Y : ℚ := 820

/-- `WORLD1_MAIN_FLOOR_Y`. -/
def WORLD1_MAIN_FLOOR_Y : ℚ := WORLD1_BASE_Y + 40

/-- `WORLD2_MAIN_FLOOR_Y`. -/
def WORLD2_MAIN_FLOOR_Y : ℚ := WORLD2_BASE_Y + 40

/-- `TICK_RATE` (env default 60). -/
def TICK_RATE : ℚ := 60

/-- `RESPAWN_DELAY_MS` (env default 1800). -/
def RESPAWN_DELAY_MS : ℚ := 1800

/-- `DISCONNECT_GRACE_MS` (env default 15000). -/
def DISCONNECT_GRACE_MS : ℚ := 15000

/-- `clamp = (n, min, max) => Math.max(min, Math.min(max, n))`. -/
def clamp (n lo hi : ℚ) : ℚ := max lo (min hi n)

/-- `Number.isFinite` on the `ℚ` fragment of the JS number line: every
rational is finite, so this is identically `true` (non-finite values are
analysed separately via `JSNum`). -/
def numberIsFinite (_ : ℚ) : Bool := true

/-! ## Geometry (`intersects`, lines 116–123) -/
/-- An axis-aligned box `{x, y, width, height}`. -/
structure Rect where
  x : ℚ
  y : ℚ
  width : ℚ
  height : ℚ
deriving DecidableEq

/-- `intersects(a, b)`: strict open AABB overlap. -/
def intersects (a b : Rect) : Bool :=
  decide (a.x < b.x + b.width) && decide (a.x + a.width > b.x) &&
  decide (a.y < b.y + b.height) && decide (a.y + a.height > b.y)

/-! ## World runtime structures (§ Worlds, lines 125–300) -/
/-- A moving platform (`{x, y, width, height, startX, endX, speed,
direction}`; `deltaX` is `undefined` until the first
`updateWorldRuntime`, hence an `Option`). -/
structure MovingPlatform where
  x : ℚ
  y : ℚ
  width : ℚ
  height : ℚ
  startX : ℚ
  endX : ℚ
  speed : ℚ
  direction : ℚ
  deltaX : Option ℚ
deriving DecidableEq

/-- A falling platform (`{x, y, width, height, falling, fallTimer}`). -/
structure FallingPlatform where
  x : ℚ
  y : ℚ
  width : ℚ
  height : ℚ
  falling : Bool
  fallTimer : ℚ
deriving DecidableEq

/-- Geometry view of a moving platform. -/
def MovingPlatform.toRect (m : MovingPlatform) : Rect :=
  ⟨m.x, m.y, m.width, m.height⟩

/-- Geometry view of a falling platform. -/
def FallingPlatform.toRect (f : FallingPlatform) : Rect :=
  ⟨f.x, f.y, f.width, f.height⟩

/-- The mutable per-room world runtime (shape of `cloneWorldRuntime`'s
result and of the `WORLDS` blueprints). -/
structure WorldRuntime where
  id : Nat
  width : ℚ
  groundY : ℚ
  hasGlobalFloor : Bool
  stopOnRelease : Bool
  gravity : ℚ
  moveSpeed : ℚ
  jumpForce : ℚ
  maxFallSpeed : ℚ
  friction : ℚ
  platforms : List Rect
  movingPlatforms : List MovingPlatform
  fallingPlatforms : List FallingPlatform
  key : Rect
  door : Rect
  dangerButtons : List Rect
deriving DecidableEq

/-- `buildWorld1Platforms()` (lines 126–166). -/
def buildWorld1Platforms : List Rect :=
  let gy := WORLD1_BASE_Y
  [ ⟨0, gy + 40, 250, 20⟩,
    ⟨250, gy + 40, 5500, 20⟩,
    ⟨320, gy + 40, 60, 20⟩,
    ⟨450, gy + 40, 60, 20⟩,
    ⟨580, gy + 40, 60, 20⟩,
    ⟨710, gy + 40, 60, 20⟩,
    ⟨840, gy + 40, 80, 20⟩,
    ⟨1100, gy - 20, 100, 20⟩,
    ⟨1280, gy - 50, 80, 20⟩,
    ⟨1440, gy - 70, 80, 20⟩,
    ⟨1600, gy - 50, 80, 20⟩,
    ⟨1760, gy - 20, 100, 20⟩,
    ⟨2000, gy + 20, 50, 20⟩,
    ⟨2120, gy + 40, 50, 20⟩,
    ⟨2240, gy + 20, 50, 20⟩,
    ⟨2360, gy + 40, 50, 20⟩,
    ⟨2480, gy + 20, 50, 20⟩,
    ⟨2600, gy + 40, 50, 20⟩,
    ⟨2720, gy + 40, 120, 20⟩,
    ⟨3020, gy - 90, 100, 20⟩,
    ⟨3200, gy - 90, 100, 20⟩,
    ⟨3380, gy - 60, 80, 20⟩,
    ⟨3540, gy - 30, 80, 20⟩,
    ⟨3700, gy + 40, 60, 20⟩,
    ⟨3850, gy + 15, 60, 20⟩,
    ⟨3990, gy + 40, 60, 20⟩,
    ⟨4130, gy + 15, 60, 20⟩,
    ⟨4270, gy + 40, 60, 20⟩,
    ⟨4410, gy + 40, 150, 20⟩,
    ⟨4760, gy - 100, 120, 20⟩,
    ⟨4960, gy - 80, 80, 20⟩,
    ⟨5120, gy - 50, 80, 20⟩,
    ⟨5280, gy - 20, 80, 20⟩,
    ⟨5440, gy + 20, 100, 20⟩,
    ⟨5620, gy + 40, 200, 20⟩ ]

/-- `buildWorld2Platforms(baseY)` (lines 176–180). -/
def buildWorld2Platforms (baseY : ℚ) : List Rect :=
  let gy := baseY
  [⟨0, gy + 40, 8200, 20⟩]

/-- `buildWorld2DangerButtons(baseY)` (lines 182–217). -/
def buildWorld2DangerButtons (baseY : ℚ) : List Rect :=
  let gy := baseY
  [ ⟨300, gy + 5, 40, 35⟩, ⟨530, gy + 5, 40, 35⟩, ⟨770, gy + 5, 40, 35⟩,
    ⟨1010, gy + 5, 40, 35⟩, ⟨1250, gy + 5, 40, 35⟩, ⟨1490, gy + 5, 40, 35⟩,
    ⟨1830, gy + 5, 40, 35⟩, ⟨2070, gy + 5, 40, 35⟩, ⟨2310, gy + 5, 40, 35⟩,
    ⟨2550, gy + 5, 40, 35⟩, ⟨2790, gy + 5, 40, 35⟩, ⟨3060, gy + 5, 40, 35⟩,
    ⟨3300, gy + 5, 40, 35⟩, ⟨3540, gy + 5, 40, 35⟩, ⟨3780, gy + 5, 40, 35⟩,
    ⟨4020, gy + 5, 40, 35⟩, ⟨4260, gy + 5, 40, 35⟩, ⟨4500, gy + 5, 40, 35⟩,
    ⟨4740, gy + 5, 40, 35⟩, ⟨4980, gy + 5, 40, 35⟩, ⟨5220, gy + 5, 40, 35⟩,
    ⟨5460, gy + 5, 40, 35⟩, ⟨5730, gy + 5, 40, 35⟩, ⟨5970, gy + 5, 40, 35⟩,
    ⟨6210, gy + 5, 40, 35⟩, ⟨6450, gy + 5, 40, 35⟩, ⟨6690, gy + 5, 40, 35⟩,
    ⟨6930, gy + 5, 40, 35⟩, ⟨7170, gy + 5, 40, 35⟩, ⟨7410, gy + 5, 40, 35⟩,
    ⟨7890, gy + 5, 40, 35⟩ ]

/-- The `WORLDS[1]` blueprint (lines 220–234). -/
def WORLDS1 : WorldRuntime where
  id := 1
  width := 6000
  groundY := WORLD1_MAIN_FLOOR_Y
  hasGlobalFloor := false
  stopOnRelease := false
  gravity := BASE_GRAVITY
  moveSpeed := BASE_MOVE_SPEED
  jumpForce := BASE_JUMP_FORCE
  maxFallSpeed := BASE_MAX_FALL_SPEED
  friction := 1
  platforms := buildWorld1Platforms
  movingPlatforms := []
  fallingPlatforms := []
  key := ⟨1950, 535, 40, 40⟩
  door := ⟨3030, 525, 55, 75⟩
  dangerButtons := []

/-- The `WORLDS[2]` blueprint (lines 235–249). -/
def WORLDS2 : WorldRuntime where
  id := 2
  width := 8200
  groundY := WORLD2_MAIN_FLOOR_Y
  hasGlobalFloor := true
  stopOnRelease := true
  gravity := BASE_GRAVITY
  moveSpeed := BASE_MOVE_SPEED
  jumpForce := BASE_JUMP_FORCE
  maxFallSpeed := BASE_MAX_FALL_SPEED
  friction := BASE_FRICTION
  platforms := buildWorld2Platforms WORLD2_BASE_Y
  movingPlatforms := []
  fallingPlatforms := []
  key := ⟨2400, WORLD2_BASE_Y - 220, 40, 40⟩
  door := ⟨4400, WORLD2_BASE_Y - 80, 80, 120⟩
  dangerButtons := buildWorld2DangerButtons WORLD2_BASE_Y

/-- `getWorld(worldId)`: `WORLDS[Number(worldId)] || WORLDS[1]`. -/
def getWorld (worldId : Nat) : WorldRuntime :=
  if worldId = 2 then WORLDS2 else WORLDS1

/-- `buildWorld2Runtime(baseY)` (lines 256–272). -/
def buildWorld2Runtime (baseY : ℚ) : WorldRuntime where
  id := 2
  width := 8200
  groundY := baseY + 40
  hasGlobalFloor := true
  stopOnRelease := true
  gravity := BASE_GRAVITY
  moveSpeed := BASE_MOVE_SPEED
  jumpForce := BASE_JUMP_FORCE
  maxFallSpeed := BASE_MAX_FALL_SPEED
  friction := BASE_FRICTION
  platforms := buildWorld2Platforms baseY
  movingPlatforms := []
  fallingPlatforms := []
  key := ⟨2400, baseY - 220, 40, 40⟩
  door := ⟨4400, baseY - 80, 80, 120⟩
  dangerButtons := buildWorld2DangerButtons baseY

/-- `cloneWorldRuntime(worldId, options)` (lines 274–300); the option is
`options.world2BaseY` (`none` when absent / not a finite number). -/
def cloneWorldRuntime (worldId : Nat) (world2BaseY : Option ℚ) : WorldRuntime :=
  if worldId = 2 then
    buildWorld2Runtime (world2BaseY.getD WORLD2_BASE_Y)
  else
    getWorld worldId

/-! ## Room data model (`createRoom` room literal, lines 890–915) -/
/-- A simulated player (`createPlayerGameState`'s shape, lines 315–341).
`standingOnPlayer` stores `Number(other.id ?? otherId) || otherId`, i.e.
either the slot number or, when the slot id is 0, the raw string key. -/
structure PlayerState where
  id : Nat
  clientPlayerId : String
  playerId : Nat
  hero : Option String
  name : String
  x : ℚ
  y : ℚ
  vx : ℚ
  vy : ℚ
  width : ℚ
  height : ℚ
  onGround : Bool
  animFrame : Nat
  facingRight : Bool
  color : String
  dead : Bool
  standingOnPlayer : Option (Nat ⊕ String)
  prevY : Option ℚ
deriving DecidableEq

/-- Collider view of a player (duck-typed `intersects(player, box)`). -/
def PlayerState.toRect (p : PlayerState) : Rect :=
  ⟨p.x, p.y, p.width, p.height⟩

/-- One lobby entry of `room.players` (`{hero, ready, name}`). -/
structure LobbyPlayer where
  hero : Option String
  ready : Bool
  name : String
deriving DecidableEq

/-- A parsed input frame (`parseInputPayload`'s result). -/
structure InputFrame where
  left : Bool
  right : Bool
  jump : Bool
deriving DecidableEq

/-- `room.gameState`. JS objects keep string keys in insertion order, so
maps are association lists without duplicate keys. -/
structure GameState where
  players : List (String × PlayerState)
  keyCollected : Bool
  playersAtDoor : List Nat
  gameStatus : String
  world : Nat
deriving DecidableEq

/-- A room (lines 890–915). Timestamps are rationals (`Date.now()`), and
`loopHandle` holds the interval handle when the tick loop is running. -/
structure Room where
  roomCode : String
  maxPlayers : Nat
  hostId : String
  started : Bool
  world : Nat
  world2BaseY : ℚ
  worldRuntime : WorldRuntime
  playerOrder : List String
  players : List (String × LobbyPlayer)
  gameState : GameState
  inputs : List (String × InputFrame)
  loopHandle : Option Nat
  lastStepAt : ℚ
  deadUntil : ℚ
deriving DecidableEq

/-! ## Association-list operations (JS object key assignment) -/
/-- `obj[k] = v` on a JS object: overwrite in place, append when new. -/
def aset {α : Type} (l : List (String × α)) (k : String) (v : α) :
    List (String × α) :=
  match l with
  | [] => [(k, v)]
  | (k', v') :: t => if k' = k then (k, v) :: t else (k', v') :: aset t k v

/-! ## Player lifecycle helpers (lines 311–367) -/
/-- `playerIndexOf(room, playerId) = room.playerOrder.indexOf(playerId) + 1`
(`indexOf` yields `-1`, hence slot `0`, when absent). -/
def playerIndexOf (room : Room) (playerId : String) : Nat :=
  match room.playerOrder.indexOf? playerId with
  | some i => i + 1
  | none => 0

/-- The `colors` array of `createPlayerGameState`. -/
def playerColors : List String :=
  ["#FF6B6B", "#4ECDC4", "#FFE66D", "#A8DADC"]

/-- `createPlayerGameState(clientPlayerId, slot, room)` (lines 315–341).
Every call site passes `slot ≥ 1`; the impossible `slot = 0` case (JS
would read `colors[-1] = undefined`) yields `""`. -/
def createPlayerGameState (clientPlayerId : String) (slot : Nat) (room : Room) :
    PlayerState :=
  let firstPlatform := room.worldRuntime.platforms.head?
  let spawnY := match firstPlatform with
    | some fp => fp.y - PLAYER_HEIGHT
    | none => room.worldRuntime.groundY - PLAYER_HEIGHT
  { id := slot
    clientPlayerId := clientPlayerId
    playerId := slot
    hero := (List.lookup clientPlayerId room.players).bind (fun lp : LobbyPlayer => lp.hero)
    name := ((List.lookup clientPlayerId room.players).map (fun lp : LobbyPlayer => lp.name)).getD ""
    x := 100 + (((slot : ℤ) - 1 : ℤ) : ℚ) * 80
    y := spawnY
    vx := 0
    vy := 0
    width := PLAYER_WIDTH
    height := PLAYER_HEIGHT
    onGround := true
    animFrame := 0
    facingRight := true
    color := match slot with
      | 0 => ""
      | Nat.succ n => (playerColors.get? (n % playerColors.length)).getD ""
    dead := false
    standingOnPlayer := none
    prevY := none }

/-- The create-if-absent step of `ensurePlayerState` (lines 347–353):
the player map with the entry for `playerId` guaranteed present. -/
def ensureBase (room : Room) (playerId : String) :
    List (String × PlayerState) :=
  if (List.lookup playerId room.gameState.players).isNone then
    aset room.gameState.players playerId
      (createPlayerGameState playerId (playerIndexOf room playerId) room)
  else room.gameState.players

/-- The in-place field updates of `ensurePlayerState` (lines 355–364). -/
def ensureFixups (room : Room) (slot : Nat) (playerId : String)
    (p : PlayerState) : PlayerState :=
  let p :=
    { p with
      id := slot
      playerId := slot
      clientPlayerId := playerId
      hero := (List.lookup playerId room.players).bind
        (fun lp : LobbyPlayer => lp.hero)
      name := ((List.lookup playerId room.players).map
        (fun lp : LobbyPlayer => lp.name)).getD ""
      width := PLAYER_WIDTH
      height := PLAYER_HEIGHT }
  { p with
    x := clamp p.x 0 (room.worldRuntime.width - p.width)
    y := if numberIsFinite p.y then p.y
         else room.worldRuntime.groundY - p.height }

/-- `ensurePlayerState(room, playerId)` (lines 343–367): returns the
mutated room together with the player that the JS function returns
(`none` models the `null` return for an unknown slot). -/
def ensurePlayerState (room : Room) (playerId : String) :
    Room × Option PlayerState :=
  let slot := playerIndexOf room playerId
  if slot < 1 then (room, none)
  else
    let base := ensureBase room playerId
    match List.lookup playerId base with
    | none =>
      ({ room with gameState := { room.gameState with players := base } }, none)
    | some p0 =>
      let p := ensureFixups room slot playerId p0
      let players' := aset base playerId p
      ({ room with gameState := { room.gameState with players := players' } },
       some p)

/-- `allPicked(room)` (lines 369–371). -/
def allPicked (room : Room) : Bool :=
  room.players.all (fun e => e.2.hero.isSome)

/-- `allReady(room)` (lines 373–375). -/
def allReady (room : Room) : Bool :=
  room.players.all (fun e => e.2.ready)

/-! ## Simulation (`src/index.js` lines 439–756) -/
/-- `parseInputPayload` result of `{left, right, jump}` defaults. -/
def defaultInput : InputFrame := ⟨false, false, false⟩

/-- A collidable entry of `platformListForCollisions`: a static platform,
a moving platform, or the index of a falling platform inside
`world.fallingPlatforms` (kept as an index because the vertical sweep
mutates `falling` / `fallTimer` through the shared reference). -/
inductive CollPlat where
  | stat (r : Rect)
  | mov (m : MovingPlatform)
  | fall (i : Nat)
deriving DecidableEq

/-- Geometry of a collidable (box positions never change during one
player step, so the pre-step world supplies them). -/
def platRect (world : WorldRuntime) : CollPlat → Rect
  | .stat r => r
  | .mov m => m.toRect
  | .fall i => match world.fallingPlatforms.get? i with
    | some fp => fp.toRect
    | none => ⟨0, 0, 0, 0⟩

/-- `platformListForCollisions(world)` (lines 538–543): statics, then
moving, then the falling platforms with `y < groundY + 300`. -/
def platformListForCollisions (world : WorldRuntime) : List CollPlat :=
  world.platforms.map CollPlat.stat ++
  world.movingPlatforms.map CollPlat.mov ++
  ((List.range world.fallingPlatforms.length).filter (fun i =>
      match world.fallingPlatforms.get? i with
      | some fp => decide (fp.y < world.groundY + 300)
      | none => false)).map CollPlat.fall

/-- `movingPlatformUnderPlayer(world, player)` (lines 545–555). -/
def movingPlatformUnderPlayer (world : WorldRuntime) (player : PlayerState) :
    Option MovingPlatform :=
  let playerBottom := player.y + player.height
  world.movingPlatforms.find? (fun mp =>
    (decide (playerBottom ≥ mp.y - 8) && decide (playerBottom ≤ mp.y + 10) &&
     decide (player.vy ≥ -1)) &&
    (decide (player.x + player.width > mp.x + 2) &&
     decide (player.x < mp.x + mp.width - 2)))

/-- One iteration of the `resolvePlayerCollisions` loop body (lines
455–514), mutating only `self`. -/
def pvpStep (worldWidth : ℚ) (selfId : String) (self : PlayerState)
    (entry : String × PlayerState) : PlayerState :=
  let (otherId, other) := entry
  if otherId = selfId ∨ other.dead then self
  else if ¬ (intersects self.toRect other.toRect = true) then self
  else
    let overlapX1 := self.x + self.width - other.x
    let overlapX2 := other.x + other.width - self.x
    let overlapY1 := self.y + self.height - other.y
    let overlapY2 := other.y + other.height - self.y
    let minOverlapX := min overlapX1 overlapX2
    let minOverlapY := min overlapY1 overlapY2
    if minOverlapX < minOverlapY then
      -- side collision: push only self, clamp, zero vx
      let x' := if self.x < other.x then self.x - minOverlapX
                else self.x + minOverlapX
      { self with x := clamp x' 0 (worldWidth - self.width), vx := 0 }
    else
      let selfPrevY := self.prevY.getD self.y
      let otherPrevY := other.prevY.getD other.y
      let selfBottom := self.y + self.height
      let otherBottom := other.y + other.height
      let selfPrevBottom := selfPrevY + self.height
      let otherPrevBottom := otherPrevY + other.height
      let landingOnOther :=
        self.vy ≥ 0 ∧ self.y < other.y ∧
        selfPrevBottom ≤ other.y + 12 ∧ selfBottom ≥ other.y
      if landingOnOther then
        { self with
          y := other.y - self.height
          vy := 0
          onGround := true
          standingOnPlayer := some (if other.id ≠ 0 then Sum.inl other.id
                                    else Sum.inr otherId) }
      else
        let hittingUnderOther :=
          self.vy < 0 ∧ selfPrevY ≥ otherPrevBottom - 8 ∧ self.y ≤ otherBottom
        if hittingUnderOther then
          { self with y := otherBottom, vy := 0 }
        else if self.y < other.y then
          { self with
            y := other.y - self.height
            vy := 0
            onGround := true
            standingOnPlayer := some (if other.id ≠ 0 then Sum.inl other.id
                                      else Sum.inr otherId) }
        else self

/-- `resolvePlayerCollisions(room, selfId)` (lines 449–515). -/
def resolvePlayerCollisions (room : Room) (selfId : String) : Room :=
  match List.lookup selfId room.gameState.players with
  | none => room
  | some self0 =>
    let self1 := { self0 with standingOnPlayer := none }
    let selfF := room.gameState.players.foldl
      (pvpStep room.worldRuntime.width selfId) self1
    let players' := aset room.gameState.players selfId selfF
    { room with gameState := { room.gameState with players := players' } }

/-- One iteration of the horizontal collision loop of `applyPlayerStep`
(lines 598–604). -/
def hstepPlat (world : WorldRuntime) (prevX : ℚ) (p : PlayerState)
    (plat : CollPlat) : PlayerState :=
  let r := platRect world plat
  if ¬ (intersects p.toRect r = true) then p
  else
    let p :=
      if p.vx > 0 then { p with x := r.x - p.width }
      else if p.vx < 0 then { p with x := r.x + r.width }
      else { p with x := prevX }
    { p with vx := 0 }

/-- One iteration of the vertical collision loop of `applyPlayerStep`
(lines 615–638), threading the falling-platform list (`plat.falling`
mutation). -/
def vstepPlat (world : WorldRuntime) (prevY prevBottom : ℚ)
    (st : PlayerState × List FallingPlatform) (plat : CollPlat) :
    PlayerState × List FallingPlatform :=
  let (p, fps) := st
  let r := platRect world plat
  if ¬ (intersects p.toRect r = true) then (p, fps)
  else
    let currBottom := p.y + p.height
    let platTop := r.y
    let platBottom := r.y + r.height
    if prevBottom ≤ platTop ∧ currBottom ≥ platTop ∧ p.vy ≥ 0 then
      let p := { p with y := platTop - p.height, vy := 0, onGround := true }
      let fps := match plat with
        | .fall i =>
          match fps.get? i with
          | some fp =>
            if fp.falling then fps
            else fps.set i { fp with falling := true, fallTimer := 0 }
          | none => fps
        | _ => fps
      (p, fps)
    else if prevY ≥ platBottom ∧ p.y ≤ platBottom ∧ p.vy < 0 then
      ({ p with y := platBottom, vy := 0 }, fps)
    else (p, fps)

/-- Horizontal intent (lines 568–584): set `vx` from the held keys, or
apply stop-on-release / friction decay with the 0.1 dead zone. `pw`
stands for `Math.pow`. -/
def stepIntent (world : WorldRuntime) (pw : ℚ → ℚ → ℚ) (dtScale : ℚ)
    (input : InputFrame) (player : PlayerState) : PlayerState :=
  if input.left then
    { player with
      vx := -world.moveSpeed
      facingRight := false
      animFrame := (player.animFrame + 1) % 4 }
  else if input.right then
    { player with
      vx := world.moveSpeed
      facingRight := true
      animFrame := (player.animFrame + 1) % 4 }
  else
    let player :=
      if world.stopOnRelease && player.onGround then
        { player with vx := 0 }
      else
        let vx' := player.vx * pw world.friction dtScale
        { player with vx := if |vx'| < 1/10 then 0 else vx' }
    { player with animFrame := 0 }

/-- Jump (lines 586–589). -/
def stepJump (world : WorldRuntime) (input : InputFrame)
    (player : PlayerState) : PlayerState :=
  if input.jump && player.onGround then
    { player with vy := world.jumpForce, onGround := false }
  else player

/-- Horizontal step and resolution (lines 593–604). -/
def stepHorizontal (world : WorldRuntime) (plats : List CollPlat)
    (dtScale : ℚ) (player : PlayerState) : PlayerState :=
  let prevX := player.x
  let xMoved := clamp (player.x + player.vx * dtScale) 0
    (world.width - player.width)
  let player := { player with x := xMoved }
  plats.foldl (hstepPlat world prevX) player

/-- Vertical step and resolution (lines 606–638), returning the player
and the (possibly marked) falling platforms. -/
def stepVertical (world : WorldRuntime) (plats : List CollPlat)
    (dtScale : ℚ) (player : PlayerState) :
    PlayerState × List FallingPlatform :=
  let prevY := player.y
  let player := { player with prevY := some prevY }
  let prevBottom := prevY + player.height
  let vy1 := min (player.vy + world.gravity * dtScale) world.maxFallSpeed
  let player :=
    { player with
      vy := vy1
      y := player.y + vy1 * dtScale
      onGround := false }
  plats.foldl (vstepPlat world prevY prevBottom) (player, world.fallingPlatforms)

/-- Global floor (lines 640–644). -/
def stepFloor (world : WorldRuntime) (player : PlayerState) : PlayerState :=
  if world.hasGlobalFloor && decide (player.y + player.height ≥ world.groundY) then
    { player with
      y := world.groundY - player.height
      vy := 0
      onGround := true }
  else player

/-- Moving-platform carry (lines 646–650). -/
def stepCarry (world : WorldRuntime) (player : PlayerState) : PlayerState :=
  match movingPlatformUnderPlayer world player with
  | some carrier =>
    if player.onGround && carrier.deltaX.isSome then
      let xCarried := clamp (player.x + carrier.deltaX.getD 0) 0
        (world.width - player.width)
      { player with x := xCarried }
    else player
  | none => player

/-- `applyPlayerStep(room, playerId, dtScale)` (lines 557–659). `pw`
stands for `Math.pow` (used only for `friction ** dtScale`) and `now`
for `Date.now()`. -/
def applyPlayerStep (pw : ℚ → ℚ → ℚ) (now : ℚ) (room : Room)
    (playerId : String) (dtScale : ℚ) : Room :=
  let world := room.worldRuntime
  match ensurePlayerState room playerId with
  | (room, popt) =>
    match popt with
    | none => room
    | some player =>
      if player.dead then room
      else
        let input := (List.lookup playerId room.inputs).getD defaultInput
        let player := stepIntent world pw dtScale input player
        let player := stepJump world input player
        let plats := platformListForCollisions world
        let player := stepHorizontal world plats dtScale player
        let st := stepVertical world plats dtScale player
        let player := st.1
        let world := { world with fallingPlatforms := st.2 }
        let player := stepFloor world player
        let player := stepCarry world player
        let fellOut := player.y > world.groundY + 300
        let player := if fellOut then { player with dead := true } else player
        let gameStatus := if fellOut then "dead" else room.gameState.gameStatus
        let deadUntil := if fellOut then now + RESPAWN_DELAY_MS else room.deadUntil
        let players' := aset room.gameState.players playerId player
        let room :=
          { room with
            worldRuntime := world
            deadUntil := deadUntil
            gameState := { room.gameState with
                           players := players'
                           gameStatus := gameStatus } }
        resolvePlayerCollisions room playerId

/-- `updateWorldRuntime(room, dtScale)` (lines 517–536). -/
def updateWorldRuntime (room : Room) (dtScale : ℚ) : Room :=
  let world := room.worldRuntime
  let movingPlatforms' := world.movingPlatforms.map (fun mp =>
    let prevX := mp.x
    let x1 := mp.x + mp.speed * mp.direction * dtScale
    let flip := x1 ≤ mp.startX ∨ x1 ≥ mp.endX
    let direction' := if flip then -mp.direction else mp.direction
    let x2 := if flip then clamp x1 mp.startX mp.endX else x1
    { mp with x := x2, direction := direction', deltaX := some (x2 - prevX) })
  let fallingPlatforms' := world.fallingPlatforms.map (fun fp =>
    if fp.falling then
      let t := fp.fallTimer + dtScale
      { fp with fallTimer := t, y := if t > 30 then fp.y + 8 * dtScale else fp.y }
    else fp)
  { room with worldRuntime :=
      { world with movingPlatforms := movingPlatforms',
                   fallingPlatforms := fallingPlatforms' } }

/-- `resetRoundAfterDeath(room)` (lines 661–676). -/
def resetRoundAfterDeath (room : Room) : Room :=
  let room := { room with
    worldRuntime := cloneWorldRuntime room.world (some room.world2BaseY) }
  let players' := room.playerOrder.foldl (fun acc pid =>
    if (List.lookup pid room.players).isSome then
      aset acc pid (createPlayerGameState pid (playerIndexOf room pid) room)
    else acc) room.gameState.players
  { room with
    gameState := { room.gameState with
      keyCollected := false
      playersAtDoor := []
      gameStatus := "playing"
      players := players' }
    deadUntil := 0 }

/-- Membership test used throughout the evaluator: the player exists,
is alive and intersects the given box. -/
def livingIntersects (players : List (String × PlayerState)) (pid : String)
    (box : Rect) : Bool :=
  match List.lookup pid players with
  | some p => !p.dead && intersects p.toRect box
  | none => false

/-- The present player ids, in slot order (`playerOrder` filtered by
lobby membership, line 690). -/
def roomPlayerIds (room : Room) : List String :=
  room.playerOrder.filter (fun pid => (List.lookup pid room.players).isSome)

/-- The key-collect scan of `evaluateGameState` (lines 692–700). -/
def evalKeyCollected (room : Room) : Bool :=
  room.gameState.keyCollected ||
    (roomPlayerIds room).any (fun pid =>
      livingIntersects room.gameState.players pid room.worldRuntime.key)

/-- The danger-button scan of `evaluateGameState` (lines 702–713). -/
def evalTouchedDanger (room : Room) : Bool :=
  decide (room.world = 2) &&
    (roomPlayerIds room).any (fun pid =>
      room.worldRuntime.dangerButtons.any (fun b =>
        livingIntersects room.gameState.players pid b))

/-- The door scan of `evaluateGameState` (lines 716–721). -/
def evalAtDoor (room : Room) : List String :=
  (roomPlayerIds room).filter (fun pid =>
    livingIntersects room.gameState.players pid room.worldRuntime.door)

/-- `evaluateGameState(room)` (lines 678–734); `now` is `Date.now()`. -/
def evaluateGameState (now : ℚ) (room : Room) : Room :=
  if room.gameState.gameStatus = "dead" then
    if room.deadUntil ≠ 0 ∧ now ≥ room.deadUntil then resetRoundAfterDeath room
    else room
  else
    let keyCollected := evalKeyCollected room
    let room1 := { room with gameState :=
        { room.gameState with keyCollected := keyCollected } }
    if evalTouchedDanger room then
      { room1 with
        gameState := { room1.gameState with gameStatus := "dead" }
        deadUntil := now + RESPAWN_DELAY_MS }
    else if keyCollected then
      let atDoor := evalAtDoor room
      let room2 := { room1 with gameState :=
          { room1.gameState with playersAtDoor := atDoor.map (fun pid =>
              ((List.lookup pid room.gameState.players).map
                (fun p : PlayerState => p.id)).getD 0) } }
      if (roomPlayerIds room).length > 0 ∧
          atDoor.length = (roomPlayerIds room).length then
        { room2 with gameState := { room2.gameState with gameStatus := "won" } }
      else
        { room2 with gameState := { room2.gameState with gameStatus := "playing" } }
    else
      { room1 with gameState := { room1.gameState with gameStatus := "playing" } }

/-- One iteration of the snapshot-building loop of `emitGameState`
(lines 414–417): skip ids no longer in the lobby, otherwise run
`ensurePlayerState` and collect the result. (The impossible `null`
return — the id is in `playerOrder` — is skipped.) -/
def emitStep (st : Room × List (String × PlayerState)) (pid : String) :
    Room × List (String × PlayerState) :=
  let (r, acc) := st
  if (List.lookup pid r.players).isNone then st
  else
    match ensurePlayerState r pid with
    | (r', some p) => (r', aset acc pid p)
    | (r', none) => (r', acc)

/-- The snapshot-building pass of `emitGameState` (lines 407–419): the
collected map replaces `room.gameState.players`. -/
def emitGameStatePass (room : Room) : Room :=
  let st := room.playerOrder.foldl emitStep (room, [])
  { st.1 with gameState := { st.1.gameState with players := st.2 } }

/-- `stepRoom(roomCode)` (lines 736–756), one tick of the driver for a
looked-up room; `now` is `Date.now()` at the tick. -/
def stepRoom (pw : ℚ → ℚ → ℚ) (now : ℚ) (room : Room) : Room :=
  if ¬ room.started then room
  else
    let frameMs := 1000 / TICK_RATE
    let elapsedMs := if room.lastStepAt ≠ 0 then now - room.lastStepAt else frameMs
    let room := { room with lastStepAt := now }
    let dtScale := clamp (elapsedMs / frameMs) (1/2) (5/2)
    let room := updateWorldRuntime room dtScale
    let room := room.playerOrder.foldl (fun r pid =>
      if (List.lookup pid r.players).isSome then applyPlayerStep pw now r pid dtScale
      else r) room
    let room := evaluateGameState now room
    emitGameStatePass room

/-! ## `sanitizeName` (lines 111–114) -/
/-- The JS `String.prototype.trim` whitespace class (WhiteSpace ∪
LineTerminator code points). -/
def jsWhitespace (c : Char) : Bool :=
  [9, 10, 11, 12, 13, 32, 160, 0x1680, 0x2000, 0x2001, 0x2002, 0x2003,
   0x2004, 0x2005, 0x2006, 0x2007, 0x2008, 0x2009, 0x200a, 0x2028, 0x2029,
   0x202f, 0x205f, 0x3000, 0xfeff].contains c.toNat

/-- `trim()` on the character list: drop whitespace from both ends. -/
def jsTrimList (l : List Char) : List Char :=
  ((l.dropWhile jsWhitespace).reverse.dropWhile jsWhitespace).reverse

/-- `trim().slice(0, 20)` on the character list. -/
def sanitizeData (l : List Char) : List Char :=
  (jsTrimList l).take 20

/-- `sanitizeName = v => String(v ?? "").trim().slice(0, 20)`. -/
def sanitizeName (v : String) : String :=
  ⟨sanitizeData v.data⟩

/-! ## World selection (lines 775–846) -/
/-- `normalizeWorldValue(value)` (lines 775–781). -/
def normalizeWorldValue (value : String) : Nat :=
  let s := jsTrimList (value.data.map Char.toLower)
  if s = "2".data ∨ s = "map2".data ∨ s = "world2".data then 2 else 1

/-- `applyWorldSelection(roomCode, playerId, requestedWorld)` (lines
823–846) on an existing room; the trailing broadcasts are
transport-side. -/
def applyWorldSelection (room : Room) (playerId : String)
    (requestedWorld : String) : Room :=
  if room.hostId ≠ playerId then room
  else
    let worldNum := normalizeWorldValue requestedWorld
    { room with
      world := worldNum
      worldRuntime := cloneWorldRuntime worldNum (some room.world2BaseY)
      gameState :=
        { players := []
          keyCollected := false
          playersAtDoor := []
          gameStatus := if room.started then "playing" else "waiting"
          world := worldNum }
      inputs := []
      deadUntil := 0 }

/-! ## Dynamic W2 ground sync (lines 783–821) -/
/-- The height-bearing part of a `playerInput` payload
(`canvasHeight ?? viewportHeight ?? height`); a field that is absent or
not a finite number is `none`. -/
structure HeightPayload where
  canvasHeight : Option ℚ
  viewportHeight : Option ℚ
  height : Option ℚ
deriving DecidableEq

/-- `normalizeWorld2BaseYFromPayload(payload)` (lines 783–790). -/
def normalizeWorld2BaseYFromPayload (payload : HeightPayload) : Option ℚ :=
  let rawHeight := (payload.canvasHeight.orElse (fun _ =>
    payload.viewportHeight)).orElse (fun _ => payload.height)
  match rawHeight with
  | none => none
  | some h =>
    if h < 100 then none
    else some (clamp ((round h : ℤ) - 80 : ℤ) 500 1400)

/-- The per-player body of `syncRoomWorld2Height`'s loop (lines
811–820): translate by the ground delta, re-clamp `x`, and plant the
player on the new ground when at or below it. -/
def syncPlayerGroundShift (worldWidth nextGroundY deltaY : ℚ)
    (p : PlayerState) : PlayerState :=
  let p := { p with y := p.y + deltaY }
  let p := { p with x := clamp p.x 0 (worldWidth - p.width) }
  if p.y + p.height ≥ nextGroundY then
    { p with y := nextGroundY - p.height, vy := 0, onGround := true }
  else p

/-- `syncRoomWorld2Height(room, payload)` (lines 792–821). -/
def syncRoomWorld2Height (room : Room) (payload : HeightPayload) : Room :=
  if room.world ≠ 2 then room
  else
    match normalizeWorld2BaseYFromPayload payload with
    | none => room
    | some nextBaseY =>
      let prevBaseY := room.world2BaseY
      if |nextBaseY - prevBaseY| < 2 then room
      else
        let prevGroundY := room.worldRuntime.groundY
        let room := { room with
          world2BaseY := nextBaseY
          worldRuntime := cloneWorldRuntime 2 (some nextBaseY) }
        let nextGroundY := room.worldRuntime.groundY
        let deltaY := nextGroundY - prevGroundY
        let players' := room.gameState.players.map (fun e =>
          (e.1, syncPlayerGroundShift room.worldRuntime.width nextGroundY
            deltaY e.2))
        { room with gameState := { room.gameState with players := players' } }

/-! ## Tick loop management (lines 758–773) and `startGameNow`
(lines 1105–1148) -/
/-- `startRoomLoop(roomCode)` on an existing room: `nextHandle` is the
interval handle `setInterval` would return; the second component records
whether a new interval was scheduled. -/
def startRoomLoop (now : ℚ) (nextHandle : Nat) (room : Room) : Room × Bool :=
  if room.loopHandle.isSome then (room, false)
  else ({ room with lastStepAt := now, loopHandle := some nextHandle }, true)

/-- The `startGameNow` handler (lines 1105–1148) on an existing room for
the sender `playerId`; returns the room, whether a new tick interval was
scheduled, and the `startDenied` message if any. -/
def startGameNow (now : ℚ) (nextHandle : Nat) (room : Room)
    (playerId : String) : Room × Bool × Option String :=
  if room.hostId ≠ playerId then (room, false, some "Only host can start")
  else if ¬ allPicked room then (room, false, some "Everyone must pick a hero")
  else if ¬ allReady room then (room, false, some "Everyone must be ready")
  else
    let room := { room with
      started := true
      worldRuntime := cloneWorldRuntime room.world (some room.world2BaseY)
      gameState :=
        { players := []
          keyCollected := false
          playersAtDoor := []
          gameStatus := "playing"
          world := room.world }
      deadUntil := 0 }
    let (room, scheduled) := startRoomLoop now nextHandle room
    (room, scheduled, none)

/-! ## `joinRoom` handler and disconnect-grace bookkeeping
(lines 303–309, 963–1027) -/
/-- Global server state touched by `joinRoom`: the `rooms` table, the
`pendingDisconnects` timer table (the set of player ids with an armed
grace timer) and the `playerToSocket` registry. -/
structure ServerState where
  rooms : List (String × Room)
  pendingDisconnects : List String
  playerToSocket : List (String × List String)
deriving DecidableEq

/-- `clearPendingDisconnect(playerId)` (lines 303–309): cancel and drop
the player's grace timer. -/
def clearPendingDisconnect (pending : List String) (playerId : String) :
    List String :=
  pending.filter (fun x => x ≠ playerId)

/-- `disconnectPlayerSocketsOnly(playerId, roomCode)` (lines 377–391):
detaches the stale sockets (a transport-side effect) and drops the
registry entry. -/
def disconnectPlayerSocketsOnly (pts : List (String × List String))
    (playerId : String) : List (String × List String) :=
  pts.filter (fun e => e.1 ≠ playerId)

/-- Register `socketId` under `playerId` (lines 1010–1012). -/
def addPlayerSocket (pts : List (String × List String))
    (playerId socketId : String) : List (String × List String) :=
  match List.lookup playerId pts with
  | some s => aset pts playerId (s ++ [socketId])
  | none => aset pts playerId [socketId]

/-- The `joinRoom` handler (lines 963–1027). Returns the new server
state and the `joinDenied` message when the join is refused (`none`
means `joinSuccess`). -/
def joinRoom (st : ServerState) (socketId roomCode playerId name : String) :
    ServerState × Option String :=
  if roomCode = "" ∨ playerId = "" then (st, some "Invalid parameters")
  else
    match List.lookup roomCode st.rooms with
    | none => (st, some "Room not found")
    | some room =>
      let st := { st with
        pendingDisconnects := clearPendingDisconnect st.pendingDisconnects playerId }
      if room.started && (List.lookup playerId room.players).isNone then
        (st, some "Game already started")
      else
        let st :=
          if (List.lookup playerId room.players).isSome then
            { st with playerToSocket :=
                disconnectPlayerSocketsOnly st.playerToSocket playerId }
          else st
        let count := room.players.length
        if (List.lookup playerId room.players).isNone ∧ count ≥ room.maxPlayers then
          (st, some "Room full")
        else
          let cleanName := sanitizeName name
          let room :=
            if (List.lookup playerId room.players).isNone then
              { room with
                players := aset room.players playerId
                  { hero := none
                    ready := false
                    name := if cleanName = "" then "Player " ++ toString (count + 1)
                            else cleanName }
                playerOrder := room.playerOrder ++ [playerId] }
            else if cleanName ≠ "" then
              match List.lookup playerId room.players with
              | some lp =>
                let lp' := { lp with name := cleanName }
                { room with players := aset room.players playerId lp' }
              | none => room
            else room
          let st := { st with
            rooms := aset st.rooms roomCode room
            playerToSocket := addPlayerSocket st.playerToSocket playerId socketId }
          (st, none)

/-! ## `ensurePlayerState` over the full JS number domain (for
simulation-fault analysis) -/
/-- A JavaScript double restricted to the values the server can produce:
a finite (rational) value, `NaN`, `+Infinity` or `-Infinity`. -/
inductive JSNum where
  | fin (q : ℚ)
  | nan
  | inf
  | ninf
deriving DecidableEq

/-- `Number.isFinite`. -/
def JSNum.isFinite : JSNum → Bool
  | .fin _ => true
  | _ => false

/-- `Math.min` (NaN-propagating, `-Infinity` absorbing). -/
def jsMin : JSNum → JSNum → JSNum
  | .nan, _ => .nan
  | _, .nan => .nan
  | .ninf, _ => .ninf
  | _, .ninf => .ninf
  | .inf, b => b
  | a, .inf => a
  | .fin a, .fin b => .fin (min a b)

/-- `Math.max` (NaN-propagating, `+Infinity` absorbing). -/
def jsMax : JSNum → JSNum → JSNum
  | .nan, _ => .nan
  | _, .nan => .nan
  | .inf, _ => .inf
  | _, .inf => .inf
  | .ninf, b => b
  | a, .ninf => a
  | .fin a, .fin b => .fin (max a b)

/-- `clamp` over JS numbers. -/
def jsClamp (n lo hi : JSNum) : JSNum := jsMax lo (jsMin hi n)

/-- The kinematic fields of a player as raw JS numbers. -/
structure JSPlayerKin where
  x : JSNum
  y : JSNum
  vx : JSNum
  vy : JSNum
  width : JSNum
  height : JSNum
deriving DecidableEq

/-- The in-place repair tail of `ensurePlayerState` (lines 361–364) over
the JS number domain: set the collider to the fixed size, clamp `x` into
the world, and reseat a non-finite `y` at the default spawn height.
(`worldWidth` and `groundY` come from the world runtime and are always
finite.) The surrounding slot lookup / creation is the `ℚ`-domain
`ensurePlayerState` above; `vx` and `vy` are not mentioned by the
source, hence untouched. -/
def ensurePlayerStateRepair (worldWidth groundY : ℚ) (p : JSPlayerKin) :
    JSPlayerKin :=
  let p := { p with width := JSNum.fin PLAYER_WIDTH,
                    height := JSNum.fin PLAYER_HEIGHT }
  let p := { p with x := jsClamp p.x (JSNum.fin 0)
                           (JSNum.fin (worldWidth - PLAYER_WIDTH)) }
  { p with y := if p.y.isFinite then p.y
                else JSNum.fin (groundY - PLAYER_HEIGHT) }

/-- `trimEnd` part of `jsTrimList`. -/
def jsTrimEnd (l : List Char) : List Char :=
  (l.reverse.dropWhile jsWhitespace).reverse

/-! ### Shared concrete fixtures for witnesses and counterexamples -/
/-- A small world runtime used by concrete rooms below. -/
def demoWorld : WorldRuntime where
  id := 1
  width := 600
  groundY := 500
  hasGlobalFloor := true
  stopOnRelease := true
  gravity := BASE_GRAVITY
  moveSpeed := BASE_MOVE_SPEED
  jumpForce := BASE_JUMP_FORCE
  maxFallSpeed := BASE_MAX_FALL_SPEED
  friction := BASE_FRICTION
  platforms := [⟨0, 540, 600, 20⟩]
  movingPlatforms := []
  fallingPlatforms := []
  key := ⟨50, 400, 40, 40⟩
  door := ⟨100, 430, 80, 120⟩
  dangerButtons := []

/-- A grounded demo player standing inside `demoWorld.door`. -/
def demoPlayer : PlayerState where
  id := 1
  clientPlayerId := "A"
  playerId := 1
  hero := some "knight"
  name := "A"
  x := 120
  y := 445
  vx := 0
  vy := 0
  width := PLAYER_WIDTH
  height := PLAYER_HEIGHT
  onGround := true
  animFrame := 0
  facingRight := true
  color := "#FF6B6B"
  dead := false
  standingOnPlayer := none
  prevY := none

/-- A started one-player room. -/
def demoRoom : Room where
  roomCode := "ABCD"
  maxPlayers := 2
  hostId := "A"
  started := true
  world := 1
  world2BaseY := 820
  worldRuntime := demoWorld
  playerOrder := ["A"]
  players := [("A", ⟨some "knight", true, "A"⟩)]
  gameState :=
    { players := [("A", demoPlayer)]
      keyCollected := true
      playersAtDoor := []
      gameStatus := "playing"
      world := 1 }
  inputs := []
  loopHandle := some 7
  lastStepAt := 0
  deadUntil := 0

/-! ### C6 — repair of non-finite player state -/
/-- A player whose `vx` has become `NaN` (all other fields finite). -/
def demoNaNPlayer : JSPlayerKin :=
  ⟨.fin 100, .fin 100, .nan, .fin 0, .fin 45, .fin 55⟩

/-- `demoRoom` after a death, with the respawn deadline pending. -/
def demoRoomDead : Room :=
  { demoRoom with
    gameState := { demoRoom.gameState with gameStatus := "dead" }
    deadUntil := 500 }

/-! ### C7 — dynamic W2 ground sync -/
/-- The `canvasHeight ?? viewportHeight ?? height` chain of a payload. -/
def payloadHeightValue (payload : HeightPayload) : Option ℚ :=
  (payload.canvasHeight.orElse (fun _ =>
    payload.viewportHeight)).orElse (fun _ => payload.height)

/-- The claim's base formula `clamp(round(h) − 80, 500, 1400)`. -/
def w2NextBaseY (h : ℚ) : ℚ :=
  clamp (((round h : ℤ) - 80 : ℤ) : ℚ) 500 1400

/-- `demoRoom` switched to world 2 (ground at 860 = 820 + 40). -/
def demoRoomW2 : Room :=
  { demoRoom with
    world := 2
    worldRuntime := { demoWorld with id := 2, width := 8200, groundY := 860 } }

/-! ### C1 — per-tick snapshot invariant -/
/-- Kinematic part of the snapshot invariant: capped fall speed and
zero vertical velocity when grounded. -/
def kinInv (mfs : ℚ) (p : PlayerState) : Prop :=
  p.vy ≤ mfs ∧ (p.onGround = true → p.vy = 0)

/-- Kinematic invariant over every entry of the player map. -/
def roomKinInv (room : Room) : Prop :=
  ∀ e ∈ room.gameState.players, kinInv room.worldRuntime.maxFallSpeed e.2

/-- The full per-player snapshot invariant of the claim. -/
def snapshotInv (w : WorldRuntime) (p : PlayerState) : Prop :=
  0 ≤ p.x ∧ p.x ≤ w.width - p.width ∧ p.vy ≤ w.maxFallSpeed ∧
  (p.onGround = true → p.vy = 0)

/-- Eligible-entry kinematic invariant: used after the evaluator, whose
round reset recreates exactly the players that the snapshot pass will
publish. -/
def roomEligKinInv (room : Room) : Prop :=
  ∀ pid ∈ room.playerOrder, (List.lookup pid room.players).isSome = true →
    ∀ p, List.lookup pid room.gameState.players = some p →
      kinInv room.worldRuntime.maxFallSpeed p

/-- The room with the runtime already recloned, as built first inside
`resetRoundAfterDeath`. -/
def resetBaseRoom (room : Room) : Room :=
  { room with
    worldRuntime := cloneWorldRuntime room.world (some room.world2BaseY) }

theorem lookup_aset_self {α : Type} (l : List (String × α)) (k : String) (v : α) :
    List.lookup k (aset l k v) = some v := by
  induction l with
  | nil => simp [aset, List.lookup]
  | cons hd t ih =>
    obtain ⟨k', v'⟩ := hd
    by_cases h : k' = k
    · simp [aset, h, List.lookup]
    · simp only [aset, if_neg h, List.lookup]
      have : (k == k') = false := by
        simp [beq_iff_eq]; exact fun hh => h hh.symm
      simp [this, ih]

theorem lookup_aset_ne {α : Type} (l : List (String × α)) (k k' : String) (v : α)
    (h : k' ≠ k) : List.lookup k' (aset l k v) = List.lookup k' l := by
  induction l with
  | nil =>
    simp only [aset, List.lookup]
    have : (k' == k) = false := by simp [beq_iff_eq]; exact h
    simp [this]
  | cons hd t ih =>
    obtain ⟨k₀, v₀⟩ := hd
    by_cases hk : k₀ = k
    · subst hk
      simp only [aset, if_pos rfl, List.lookup]
      have : (k' == k₀) = false := by simp [beq_iff_eq]; exact h
      simp [this]
    · simp only [aset, if_neg hk, List.lookup]
      by_cases he : k' = k₀
      · subst he; simp
      · have : (k' == k₀) = false := by simp [beq_iff_eq]; exact he
        simp [this, ih]

theorem mem_aset {α : Type} {l : List (String × α)} {k : String} {v : α}
    {e : String × α} (h : e ∈ aset l k v) : e = (k, v) ∨ e ∈ l := by
  induction l with
  | nil => simp [aset] at h; simp [h]
  | cons hd t ih =>
    obtain ⟨k', v'⟩ := hd
    by_cases hk : k' = k
    · simp only [aset, if_pos hk] at h
      rcases List.mem_cons.mp h with h1 | h2
      · exact Or.inl h1
      · exact Or.inr (List.mem_cons_of_mem _ h2)
    · simp only [aset, if_neg hk] at h
      rcases List.mem_cons.mp h with h1 | h2
      · exact Or.inr (h1 ▸ List.mem_cons_self _ _)
      · rcases ih h2 with h3 | h4
        · exact Or.inl h3
        · exact Or.inr (List.mem_cons_of_mem _ h4)

theorem lookup_mem {α : Type} {l : List (String × α)} {k : String} {v : α}
    (h : List.lookup k l = some v) : (k, v) ∈ l := by
  induction l with
  | nil => simp [List.lookup] at h
  | cons hd t ih =>
    obtain ⟨k', v'⟩ := hd
    by_cases he : k = k'
    · subst he
      simp [List.lookup] at h
      simp [h]
    · have hb : (k == k') = false := by simp [beq_iff_eq]; exact he
      simp [List.lookup, hb] at h
      exact List.mem_cons_of_mem _ (ih h)

/-! ## Theorems

### C8 — `sanitizeName` length bound and idempotence -/
theorem length_dropWhile_le' (p : Char → Bool) (l : List Char) :
    (l.dropWhile p).length ≤ l.length := by
  induction l with
  | nil => simp
  | cons c t ih =>
    by_cases h : p c
    · rw [List.dropWhile_cons, if_pos h]
      exact le_trans ih (by simp)
    · rw [List.dropWhile_cons, if_neg h]

theorem head_dropWhile_false {p : Char → Bool} {c : Char} {r l : List Char}
    (h : l.dropWhile p = c :: r) : p c = false := by
  induction l with
  | nil => simp [List.dropWhile] at h
  | cons a t ih =>
    by_cases hp : p a
    · rw [List.dropWhile_cons, if_pos hp] at h; exact ih h
    · rw [List.dropWhile_cons, if_neg hp] at h
      have hac : a = c := (List.cons.injEq a t c r ▸ h).1
      rw [← hac]
      simpa using hp

theorem dropWhile_head_false {p : Char → Bool} {c : Char} (r : List Char)
    (h : p c = false) : (c :: r).dropWhile p = c :: r := by
  rw [List.dropWhile_cons, if_neg (by simp [h])]

theorem exists_append_dropWhile (p : Char → Bool) (l : List Char) :
    ∃ t, t ++ l.dropWhile p = l := by
  induction l with
  | nil => exact ⟨[], rfl⟩
  | cons c t ih =>
    by_cases hp : p c
    · obtain ⟨s, hs⟩ := ih
      exact ⟨c :: s, by rw [List.dropWhile_cons, if_pos hp]; simpa using hs⟩
    · exact ⟨[], by rw [List.dropWhile_cons, if_neg hp]; rfl⟩

theorem dropWhile_idem (p : Char → Bool) (l : List Char) :
    (l.dropWhile p).dropWhile p = l.dropWhile p := by
  cases h : l.dropWhile p with
  | nil => simp
  | cons c r => exact dropWhile_head_false r (head_dropWhile_false h)

theorem jsTrimList_eq (l : List Char) :
    jsTrimList l = jsTrimEnd (l.dropWhile jsWhitespace) := rfl

theorem jsTrimEnd_prefix_eq (l : List Char) : ∃ t, jsTrimEnd l ++ t = l := by
  obtain ⟨s, hs⟩ := exists_append_dropWhile jsWhitespace l.reverse
  refine ⟨s.reverse, ?_⟩
  have := congrArg List.reverse hs
  simpa [jsTrimEnd] using this

theorem jsTrimEnd_idem (l : List Char) : jsTrimEnd (jsTrimEnd l) = jsTrimEnd l := by
  simp [jsTrimEnd, dropWhile_idem]

theorem dropWhile_jsTrimEnd_dropWhile (l : List Char) :
    (jsTrimEnd (l.dropWhile jsWhitespace)).dropWhile jsWhitespace =
      jsTrimEnd (l.dropWhile jsWhitespace) := by
  cases h : jsTrimEnd (l.dropWhile jsWhitespace) with
  | nil => simp
  | cons c r =>
    obtain ⟨t, ht⟩ := jsTrimEnd_prefix_eq (l.dropWhile jsWhitespace)
    rw [h] at ht
    have hdw : l.dropWhile jsWhitespace = c :: (r ++ t) := by
      rw [← ht]; simp
    exact dropWhile_head_false r (head_dropWhile_false hdw)

theorem jsTrimList_idem (l : List Char) :
    jsTrimList (jsTrimList l) = jsTrimList l := by
  rw [jsTrimList_eq, jsTrimList_eq (l := l), dropWhile_jsTrimEnd_dropWhile,
    jsTrimEnd_idem]

theorem jsTrimList_length_le (l : List Char) :
    (jsTrimList l).length ≤ l.length := by
  have h1 := length_dropWhile_le' jsWhitespace l
  have h2 := length_dropWhile_le' jsWhitespace (l.dropWhile jsWhitespace).reverse
  simp only [jsTrimList, List.length_reverse] at h2 ⊢
  omega

theorem sanitizeData_length_le (l : List Char) : (sanitizeData l).length ≤ 20 := by
  simp [sanitizeData, List.length_take]

theorem sanitizeData_idem_from_two (l : List Char) :
    sanitizeData (sanitizeData (sanitizeData l)) =
      sanitizeData (sanitizeData l) := by
  have fix2 : sanitizeData (sanitizeData l) = jsTrimList (sanitizeData l) := by
    apply List.take_of_length_le
    have h1 := jsTrimList_length_le (sanitizeData l)
    have h2 := sanitizeData_length_le l
    omega
  calc sanitizeData (sanitizeData (sanitizeData l))
      = (jsTrimList (jsTrimList (sanitizeData l))).take 20 := by
        rw [sanitizeData, fix2]
    _ = (jsTrimList (sanitizeData l)).take 20 := by rw [jsTrimList_idem]
    _ = sanitizeData (sanitizeData l) := rfl

/-- C8 (counterexample): `sanitizeName` is **not** idempotent — slicing
to 20 characters can expose trailing whitespace that a second
application then trims away ("aaaaaaaaaaaaaaaaaaa b" ↦
"aaaaaaaaaaaaaaaaaaa " ↦ "aaaaaaaaaaaaaaaaaaa"). -/
theorem sanitizeName_not_idempotent :
    sanitizeName (sanitizeName "aaaaaaaaaaaaaaaaaaa b") ≠
      sanitizeName "aaaaaaaaaaaaaaaaaaa b" := by decide

/-- C8 (amended): `sanitizeName x` always has at most 20 characters, and
`sanitizeName` is idempotent from the second application on —
`sanitizeName (sanitizeName x)` is a fixed point — although plain
idempotence fails (see the counterexample). -/
theorem sanitizeName_length_and_eventually_idempotent (v : String) :
    (sanitizeName v).length ≤ 20 ∧
    sanitizeName (sanitizeName (sanitizeName v)) =
      sanitizeName (sanitizeName v) := by
  refine ⟨sanitizeData_length_le v.data, ?_⟩
  show String.mk (sanitizeData (sanitizeData (sanitizeData v.data))) =
    String.mk (sanitizeData (sanitizeData v.data))
  exact congrArg String.mk (sanitizeData_idem_from_two v.data)

/-! ### C4 — `setWorld` / `setLevel` while started -/
/-- C4 (counterexample): in `demoRoom` the game is started, yet the
host's `setWorld("2")` is **not** denied — `room.world` changes. -/
theorem applyWorldSelection_started_not_denied :
    demoRoom.started = true ∧
    (applyWorldSelection demoRoom "A" "2").world ≠ demoRoom.world := by
  constructor
  · rfl
  · decide

/-- C4 (amended): `applyWorldSelection` ignores `started` entirely — a
non-host sender (or an unknown room) leaves the room unchanged, while
the host's request is always applied: the world is normalized, the
runtime rebuilt, the game state reset (status `"playing"` when started,
`"waiting"` otherwise) and the inputs cleared. -/
theorem applyWorldSelection_spec (room : Room) (playerId requestedWorld : String) :
    applyWorldSelection room playerId requestedWorld =
      if room.hostId = playerId then
        { room with
          world := normalizeWorldValue requestedWorld
          worldRuntime := cloneWorldRuntime (normalizeWorldValue requestedWorld)
            (some room.world2BaseY)
          gameState :=
            { players := []
              keyCollected := false
              playersAtDoor := []
              gameStatus := if room.started then "playing" else "waiting"
              world := normalizeWorldValue requestedWorld }
          inputs := []
          deadUntil := 0 }
      else room := by
  unfold applyWorldSelection
  by_cases h : room.hostId = playerId
  · rw [if_neg (by simpa using h), if_pos h]
  · rw [if_pos (by simpa using h), if_neg h]

/-- C6 (counterexample): `ensurePlayerState`'s repair step does **not**
restore a non-finite `vx` — after the call `vx` is still `NaN`, so not
all of `x, y, vx, vy` are finite afterwards. -/
theorem ensurePlayerStateRepair_keeps_nan_vx :
    demoNaNPlayer.vx.isFinite = false ∧
    ((ensurePlayerStateRepair 600 500 demoNaNPlayer).vx).isFinite = false := by
  decide

/-- C6 (amended): the repair step reseats only a non-finite `y` to the
default spawn height (`groundY − height`), so `y` is always finite
afterwards; `vx` and `vy` are never modified, so non-finite velocities
persist. -/
theorem ensurePlayerStateRepair_spec (worldWidth groundY : ℚ) (p : JSPlayerKin) :
    ((ensurePlayerStateRepair worldWidth groundY p).y).isFinite = true ∧
    (ensurePlayerStateRepair worldWidth groundY p).vx = p.vx ∧
    (ensurePlayerStateRepair worldWidth groundY p).vy = p.vy := by
  refine ⟨?_, rfl, rfl⟩
  show (if p.y.isFinite then p.y else JSNum.fin (groundY - PLAYER_HEIGHT)).isFinite = true
  cases hy : p.y <;> simp [hy, JSNum.isFinite]

/-! ### C9 — at most one tick loop per room -/
/-- C9: once `room.loopHandle` is set, `startRoomLoop` is a no-op (no
second interval is scheduled), and hence a repeated `startGameNow` —
which re-runs the start path and resets the game state — keeps the
existing handle and schedules nothing. -/
theorem startRoomLoop_single (now : ℚ) (nextHandle : Nat) (room : Room)
    (playerId : String) (h : Nat) (hh : room.loopHandle = some h) :
    startRoomLoop now nextHandle room = (room, false) ∧
    (startGameNow now nextHandle room playerId).1.loopHandle = some h ∧
    (startGameNow now nextHandle room playerId).2.1 = false := by
  have hsome : room.loopHandle.isSome = true := by rw [hh]; rfl
  have h1 : startRoomLoop now nextHandle room = (room, false) := by
    unfold startRoomLoop; rw [if_pos hsome]
  refine ⟨h1, ?_⟩
  unfold startGameNow
  by_cases hhost : room.hostId ≠ playerId
  · rw [if_pos hhost]; exact ⟨hh, rfl⟩
  · rw [if_neg hhost]
    by_cases hp : allPicked room
    · rw [if_neg (by simpa using hp)]
      by_cases hr : allReady room
      · rw [if_neg (by simpa using hr)]
        simp [startRoomLoop, hsome, hh]
      · rw [if_pos (by simpa using hr)]; exact ⟨hh, rfl⟩
    · rw [if_pos (by simpa using hp)]; exact ⟨hh, rfl⟩

/-- C9 (witness): the started `demoRoom` already has loop handle 7; a
repeated `startGameNow` keeps it and schedules no second interval. -/
theorem startRoomLoop_single_witness :
    startRoomLoop 1000 9 demoRoom = (demoRoom, false) ∧
    (startGameNow 1000 9 demoRoom "A").1.loopHandle = some 7 ∧
    (startGameNow 1000 9 demoRoom "A").2.1 = false :=
  startRoomLoop_single 1000 9 demoRoom "A" 7 rfl

/-! ### C5 / C10 — `joinRoom` denial paths -/
theorem not_mem_clearPendingDisconnect (l : List String) (playerId : String) :
    playerId ∉ clearPendingDisconnect l playerId := by
  intro h
  simp [clearPendingDisconnect, List.mem_filter] at h

/-- C5: whenever `joinRoom` answers with any `joinDenied` message, the
`rooms` table — and hence every room's `players`, `playerOrder`,
`hostId`, `started` and `worldRuntime` — is left unchanged. -/
theorem joinRoom_denied_preserves_rooms (st : ServerState)
    (socketId roomCode playerId name msg : String)
    (hden : (joinRoom st socketId roomCode playerId name).2 = some msg) :
    (joinRoom st socketId roomCode playerId name).1.rooms = st.rooms := by
  unfold joinRoom at hden ⊢
  by_cases h0 : roomCode = "" ∨ playerId = ""
  · simp only [if_pos h0]
  · simp only [if_neg h0] at hden ⊢
    cases hl : List.lookup roomCode st.rooms with
    | none => simp only [hl]
    | some room =>
      simp only [hl] at hden ⊢
      by_cases h1 : (room.started && (List.lookup playerId room.players).isNone) = true
      · simp only [if_pos h1]
      · simp only [if_neg h1] at hden ⊢
        by_cases h2 : (List.lookup playerId room.players).isNone = true ∧
            room.players.length ≥ room.maxPlayers
        · simp only [if_pos h2]
          split
          · rfl
          · rfl
        · simp only [if_neg h2] at hden
          simp at hden

/-- C5 (witness): joining the started `demoRoom` with a fresh player id
is denied and leaves the rooms table unchanged. -/
theorem joinRoom_denied_preserves_rooms_witness :
    (joinRoom ⟨[("ABCD", demoRoom)], ["B"], []⟩ "s1" "ABCD" "B" "Bob").2 =
      some "Game already started" ∧
    (joinRoom ⟨[("ABCD", demoRoom)], ["B"], []⟩ "s1" "ABCD" "B" "Bob").1.rooms =
      [("ABCD", demoRoom)] :=
  ⟨rfl, joinRoom_denied_preserves_rooms _ "s1" "ABCD" "B" "Bob"
      "Game already started" rfl⟩

/-- C10: a `joinRoom` naming an existing room cancels the sender's
pending disconnect-grace timer before any membership validation — the
timer is gone afterwards even when the join is then denied
("Game already started", "Room full"), so the scheduled removal of that
player can no longer fire. -/
theorem joinRoom_clears_pending_disconnect (st : ServerState)
    (socketId roomCode playerId name : String) (room : Room)
    (hrc : roomCode ≠ "") (hpid : playerId ≠ "")
    (hl : List.lookup roomCode st.rooms = some room) :
    playerId ∉ (joinRoom st socketId roomCode playerId name).1.pendingDisconnects := by
  unfold joinRoom
  have h0 : ¬ (roomCode = "" ∨ playerId = "") := by
    rintro (h | h)
    exacts [hrc h, hpid h]
  simp only [if_neg h0, hl]
  by_cases h1 : (room.started && (List.lookup playerId room.players).isNone) = true
  · simp only [if_pos h1]
    exact not_mem_clearPendingDisconnect _ _
  · simp only [if_neg h1]
    by_cases hs : (List.lookup playerId room.players).isSome = true
    · simp only [if_pos hs]
      by_cases h2 : (List.lookup playerId room.players).isNone = true ∧
          room.players.length ≥ room.maxPlayers
      · simp only [if_pos h2]
        exact not_mem_clearPendingDisconnect _ _
      · simp only [if_neg h2]
        exact not_mem_clearPendingDisconnect _ _
    · simp only [if_neg hs]
      by_cases h2 : (List.lookup playerId room.players).isNone = true ∧
          room.players.length ≥ room.maxPlayers
      · simp only [if_pos h2]
        exact not_mem_clearPendingDisconnect _ _
      · simp only [if_neg h2]
        exact not_mem_clearPendingDisconnect _ _

/-- C10 (witness): player "B" has a pending grace timer; the denied
rejoin of the started room still cancels it. -/
theorem joinRoom_clears_pending_disconnect_witness :
    "B" ∈ (⟨[("ABCD", demoRoom)], ["B"], []⟩ : ServerState).pendingDisconnects ∧
    "B" ∉ (joinRoom ⟨[("ABCD", demoRoom)], ["B"], []⟩ "s1" "ABCD" "B"
      "Bob").1.pendingDisconnects :=
  ⟨by simp,
   joinRoom_clears_pending_disconnect _ "s1" "ABCD" "B" "Bob" demoRoom
     (by decide) (by decide) rfl⟩

/-! ### C2 — what `gameStatus = "won"` guarantees -/
theorem lookup_isSome_iff_mem_keys {α : Type} (l : List (String × α)) (k : String) :
    (List.lookup k l).isSome = true ↔ k ∈ l.map Prod.fst := by
  induction l with
  | nil => simp [List.lookup]
  | cons hd t ih =>
    obtain ⟨k', v'⟩ := hd
    by_cases h : k = k'
    · subst h; simp [List.lookup]
    · have hb : (k == k') = false := by simp [beq_iff_eq]; exact h
      simp [List.lookup, hb, h, ih]

theorem resetRoundAfterDeath_gameStatus (room : Room) :
    (resetRoundAfterDeath room).gameState.gameStatus = "playing" := rfl

/-- C2: whenever the evaluator sets `gameStatus` to `"won"`, the key has
been collected, every present lobby player is alive and intersects
`world.door` at that moment, and the published `playersAtDoor` list has
exactly as many entries as there are present lobby players. (The
hypotheses are the standing membership invariants: slot order has no
duplicates and lists exactly the lobby keys.) -/
theorem evaluateGameState_won_spec (now : ℚ) (room : Room)
    (hnd : room.playerOrder.Nodup)
    (hcov : ∀ k ∈ room.players.map Prod.fst, k ∈ room.playerOrder)
    (hknd : (room.players.map Prod.fst).Nodup)
    (hwon : (evaluateGameState now room).gameState.gameStatus = "won") :
    (evaluateGameState now room).gameState.keyCollected = true ∧
    (∀ pid, (List.lookup pid room.players).isSome = true →
      ∃ p, List.lookup pid room.gameState.players = some p ∧ p.dead = false ∧
        intersects p.toRect room.worldRuntime.door = true) ∧
    (evaluateGameState now room).gameState.playersAtDoor.length =
      room.players.length := by
  by_cases hd : room.gameState.gameStatus = "dead"
  · exfalso
    unfold evaluateGameState at hwon
    rw [if_pos hd] at hwon
    by_cases ht : room.deadUntil ≠ 0 ∧ now ≥ room.deadUntil
    · rw [if_pos ht] at hwon
      rw [resetRoundAfterDeath_gameStatus] at hwon
      exact (by decide : ("playing":String) ≠ "won") hwon
    · rw [if_neg ht] at hwon
      exact (by decide : ("dead":String) ≠ "won") (hd.symm.trans hwon)
  · unfold evaluateGameState at hwon ⊢
    rw [if_neg hd] at hwon ⊢
    by_cases htd : evalTouchedDanger room = true
    · exfalso
      simp only [if_pos htd] at hwon
      exact (by decide : ("dead":String) ≠ "won") hwon
    · simp only [if_neg htd] at hwon ⊢
      by_cases hk : evalKeyCollected room = true
      · simp only [if_pos hk] at hwon ⊢
        by_cases hwin : (roomPlayerIds room).length > 0 ∧
            (evalAtDoor room).length = (roomPlayerIds room).length
        · simp only [if_pos hwin]
          have hfe : evalAtDoor room = roomPlayerIds room :=
            (List.filter_sublist _).eq_of_length hwin.2
          refine ⟨hk, ?_, ?_⟩
          · intro pid hpid
            have hmem : pid ∈ room.players.map Prod.fst :=
              (lookup_isSome_iff_mem_keys _ _).mp hpid
            have hord : pid ∈ room.playerOrder := hcov pid hmem
            have hin : pid ∈ roomPlayerIds room :=
              List.mem_filter.mpr ⟨hord, hpid⟩
            have h2 : livingIntersects room.gameState.players pid
                room.worldRuntime.door = true :=
              (List.mem_filter.mp (hfe ▸ hin : pid ∈ evalAtDoor room)).2
            cases hl : List.lookup pid room.gameState.players with
            | none =>
              simp only [livingIntersects, hl] at h2
              exact absurd h2 Bool.false_ne_true
            | some p =>
              simp only [livingIntersects, hl, Bool.and_eq_true] at h2
              exact ⟨p, rfl, by simpa using h2.1, h2.2⟩
          · show ((evalAtDoor room).map _).length = room.players.length
            rw [List.length_map, hwin.2]
            have hperm : (roomPlayerIds room).Perm (room.players.map Prod.fst) := by
              refine (List.perm_ext_iff_of_nodup (hnd.filter _) hknd).mpr ?_
              intro a
              constructor
              · intro ha
                exact (lookup_isSome_iff_mem_keys _ _).mp (List.mem_filter.mp ha).2
              · intro ha
                exact List.mem_filter.mpr
                  ⟨hcov a ha, (lookup_isSome_iff_mem_keys _ _).mpr ha⟩
            rw [hperm.length_eq, List.length_map]
        · exfalso
          simp only [if_neg hwin] at hwon
          exact (by decide : ("playing":String) ≠ "won") hwon
      · exfalso
        simp only [if_neg hk] at hwon
        exact (by decide : ("playing":String) ≠ "won") hwon

/-- C2 (witness): the one-player `demoRoom`, standing in the door with
the key collected, is evaluated to `"won"` with all the guarantees. -/
theorem evaluateGameState_won_spec_witness :
    (evaluateGameState 1000 demoRoom).gameState.gameStatus = "won" ∧
    ((evaluateGameState 1000 demoRoom).gameState.keyCollected = true ∧
     (∀ pid, (List.lookup pid demoRoom.players).isSome = true →
       ∃ p, List.lookup pid demoRoom.gameState.players = some p ∧
         p.dead = false ∧
         intersects p.toRect demoRoom.worldRuntime.door = true) ∧
     (evaluateGameState 1000 demoRoom).gameState.playersAtDoor.length =
       demoRoom.players.length) := by
  have hwon : (evaluateGameState 1000 demoRoom).gameState.gameStatus = "won" := by
    norm_num [evaluateGameState, evalKeyCollected, evalTouchedDanger, evalAtDoor,
      roomPlayerIds, demoRoom, demoWorld, demoPlayer, livingIntersects,
      intersects, List.lookup, PlayerState.toRect, PLAYER_WIDTH, PLAYER_HEIGHT,
      show (("playing":String) = "dead") = False from by simp,
      show (("A":String) == "A") = true from by decide]
  exact ⟨hwon, evaluateGameState_won_spec 1000 demoRoom (by decide) (by decide)
    (by decide) hwon⟩

/-! ### C3 — death reset -/
theorem lookup_reset_foldl (room1 : Room) (pid : String) (l : List String)
    (hnd : l.Nodup) :
    ∀ acc : List (String × PlayerState),
    List.lookup pid (l.foldl (fun acc q =>
      if (List.lookup q room1.players).isSome then
        aset acc q (createPlayerGameState q (playerIndexOf room1 q) room1)
      else acc) acc) =
    if pid ∈ l ∧ (List.lookup pid room1.players).isSome = true then
      some (createPlayerGameState pid (playerIndexOf room1 pid) room1)
    else List.lookup pid acc := by
  induction l with
  | nil => intro acc; simp
  | cons a t ih =>
    intro acc
    obtain ⟨hna, hnd'⟩ := List.nodup_cons.mp hnd
    simp only [List.foldl_cons]
    by_cases hpa : pid = a
    · subst hpa
      by_cases hs : (List.lookup pid room1.players).isSome = true
      · rw [if_pos hs, ih hnd', if_neg (fun hc => hna hc.1), lookup_aset_self,
          if_pos ⟨List.mem_cons_self _ _, hs⟩]
      · rw [if_neg hs, ih hnd', if_neg (fun hc => hs hc.2),
          if_neg (fun hc => hs hc.2)]
    · have hiff : (pid ∈ a :: t ∧ (List.lookup pid room1.players).isSome = true)
          ↔ (pid ∈ t ∧ (List.lookup pid room1.players).isSome = true) := by
        simp [List.mem_cons, hpa]
      by_cases hsa : (List.lookup a room1.players).isSome = true
      · rw [if_pos hsa, ih hnd']
        by_cases hc : pid ∈ t ∧ (List.lookup pid room1.players).isSome = true
        · rw [if_pos hc, if_pos (hiff.mpr hc)]
        · rw [if_neg hc, if_neg (fun h => hc (hiff.mp h)),
            lookup_aset_ne _ _ _ _ hpa]
      · rw [if_neg hsa, ih hnd']
        by_cases hc : pid ∈ t ∧ (List.lookup pid room1.players).isSome = true
        · rw [if_pos hc, if_pos (hiff.mpr hc)]
        · rw [if_neg hc, if_neg (fun h => hc (hiff.mp h))]

/-- C3: the first evaluator run at `now ≥ deadUntil` on a room in
`gameStatus "dead"` with a pending `deadUntil` performs exactly the
round reset and nothing else: the runtime is rebuilt from the blueprint,
`keyCollected` and `playersAtDoor` are cleared, the status becomes
`"playing"`, `deadUntil` becomes 0, the lobby is untouched, and every
present player is recreated at its slot-indexed spawn
(`x = 100 + 80·(slot−1)`, `y` = top of the first platform minus the
player height, or `groundY −` height without platforms). -/
theorem evaluateGameState_dead_reset (now : ℚ) (room : Room)
    (h1 : room.gameState.gameStatus = "dead")
    (h2 : 0 < room.deadUntil) (h3 : room.deadUntil ≤ now)
    (hnd : room.playerOrder.Nodup) :
    evaluateGameState now room = resetRoundAfterDeath room ∧
    (evaluateGameState now room).worldRuntime =
      cloneWorldRuntime room.world (some room.world2BaseY) ∧
    (evaluateGameState now room).gameState.keyCollected = false ∧
    (evaluateGameState now room).gameState.playersAtDoor = [] ∧
    (evaluateGameState now room).gameState.gameStatus = "playing" ∧
    (evaluateGameState now room).deadUntil = 0 ∧
    (evaluateGameState now room).players = room.players ∧
    (evaluateGameState now room).playerOrder = room.playerOrder ∧
    (evaluateGameState now room).inputs = room.inputs ∧
    (evaluateGameState now room).started = room.started ∧
    (∀ pid ∈ room.playerOrder, (List.lookup pid room.players).isSome = true →
      ∃ p, List.lookup pid (evaluateGameState now room).gameState.players =
          some p ∧
        p.x = 100 + (((playerIndexOf room pid : ℤ) - 1 : ℤ) : ℚ) * 80 ∧
        p.y = (match (cloneWorldRuntime room.world
                  (some room.world2BaseY)).platforms.head? with
               | some fp => fp.y - PLAYER_HEIGHT
               | none => (cloneWorldRuntime room.world
                   (some room.world2BaseY)).groundY - PLAYER_HEIGHT) ∧
        p.vx = 0 ∧ p.vy = 0 ∧ p.dead = false ∧ p.onGround = true ∧
        p.id = playerIndexOf room pid) := by
  have heq : evaluateGameState now room = resetRoundAfterDeath room := by
    unfold evaluateGameState
    rw [if_pos h1, if_pos ⟨ne_of_gt h2, h3⟩]
  refine ⟨heq, ?_⟩
  rw [heq]
  refine ⟨rfl, rfl, rfl, rfl, rfl, rfl, rfl, rfl, rfl, ?_⟩
  intro pid hord hsome
  refine ⟨createPlayerGameState pid (playerIndexOf room pid)
    { room with worldRuntime := cloneWorldRuntime room.world (some room.world2BaseY) },
    ?_, rfl, rfl, rfl, rfl, rfl, rfl, rfl⟩
  have hlk := lookup_reset_foldl
    { room with worldRuntime := cloneWorldRuntime room.world (some room.world2BaseY) }
    pid room.playerOrder hnd
    ({ room with worldRuntime :=
        cloneWorldRuntime room.world (some room.world2BaseY) }).gameState.players
  rw [if_pos ⟨hord, hsome⟩] at hlk
  exact hlk

/-- C3 (witness): at `now = 1000 ≥ 500` the dead `demoRoom` is reset. -/
theorem evaluateGameState_dead_reset_witness :
    (0:ℚ) < demoRoomDead.deadUntil ∧
    evaluateGameState 1000 demoRoomDead = resetRoundAfterDeath demoRoomDead ∧
    (evaluateGameState 1000 demoRoomDead).gameState.gameStatus = "playing" ∧
    (evaluateGameState 1000 demoRoomDead).deadUntil = 0 := by
  have h := evaluateGameState_dead_reset 1000 demoRoomDead rfl (by decide)
    (by decide) (by decide)
  exact ⟨by decide, h.1, h.2.2.2.2.1, h.2.2.2.2.2.1⟩

theorem normalize_payload_eq (payload : HeightPayload) (h : ℚ)
    (hv : payloadHeightValue payload = some h) (hh : 100 ≤ h) :
    normalizeWorld2BaseYFromPayload payload = some (w2NextBaseY h) := by
  unfold normalizeWorld2BaseYFromPayload
  have hch : (payload.canvasHeight.orElse (fun _ =>
      payload.viewportHeight)).orElse (fun _ => payload.height) = some h := hv
  rw [hch]
  show (if h < 100 then none
    else some (clamp (((round h : ℤ) - 80 : ℤ) : ℚ) 500 1400)) =
    some (w2NextBaseY h)
  rw [if_neg (by push_neg; linarith)]
  rfl

theorem syncPlayerGroundShift_y (worldWidth g nb : ℚ) (p : PlayerState)
    (hgr : p.y + p.height ≤ g) :
    (syncPlayerGroundShift worldWidth (nb + 40) (nb + 40 - g) p).y =
      p.y + (nb + 40 - g) := by
  unfold syncPlayerGroundShift
  by_cases hs : p.y + (nb + 40 - g) + p.height ≥ nb + 40
  · simp only [if_pos hs]
    have hge : g ≤ p.y + p.height := by linarith
    have heq : p.y + p.height = g := le_antisymm hgr hge
    show nb + 40 - p.height = p.y + (nb + 40 - g)
    linarith
  · simp only [if_neg hs]

/-- C7 (amended): for a height report `h ≥ 100` received by a world-2
room, the new base is `clamp(round(h) − 80, 500, 1400)`; when it differs
from the previous base by less than 2 nothing changes, and otherwise the
W2 runtime is rebuilt at the new base and every player resting on or
above the old ground has its `y` translated by the ground delta.
(Reports below 100 are ignored by the code — see the counterexample.) -/
theorem syncRoomWorld2Height_spec (room : Room) (payload : HeightPayload) (h : ℚ)
    (hw : room.world = 2)
    (hv : payloadHeightValue payload = some h)
    (hh : 100 ≤ h)
    (hground : ∀ e ∈ room.gameState.players,
      e.2.y + e.2.height ≤ room.worldRuntime.groundY) :
    (|w2NextBaseY h - room.world2BaseY| < 2 →
      syncRoomWorld2Height room payload = room) ∧
    (2 ≤ |w2NextBaseY h - room.world2BaseY| →
      (syncRoomWorld2Height room payload).world2BaseY = w2NextBaseY h ∧
      (syncRoomWorld2Height room payload).worldRuntime =
        cloneWorldRuntime 2 (some (w2NextBaseY h)) ∧
      (∀ e ∈ room.gameState.players,
        ∃ p, (e.1, p) ∈ (syncRoomWorld2Height room payload).gameState.players ∧
          p.y = e.2.y + ((w2NextBaseY h + 40) - room.worldRuntime.groundY))) := by
  have hne : ¬ room.world ≠ 2 := by rw [hw]; exact fun hc => hc rfl
  constructor
  · intro hlt
    unfold syncRoomWorld2Height
    rw [if_neg hne, normalize_payload_eq payload h hv hh]
    show (if |w2NextBaseY h - room.world2BaseY| < 2 then room else _) = room
    rw [if_pos hlt]
  · intro hge
    have hnlt : ¬ |w2NextBaseY h - room.world2BaseY| < 2 := not_lt.mpr hge
    have hpost : syncRoomWorld2Height room payload =
        { room with
          world2BaseY := w2NextBaseY h
          worldRuntime := cloneWorldRuntime 2 (some (w2NextBaseY h))
          gameState := { room.gameState with
            players := room.gameState.players.map (fun e =>
              (e.1, syncPlayerGroundShift
                (cloneWorldRuntime 2 (some (w2NextBaseY h))).width
                (cloneWorldRuntime 2 (some (w2NextBaseY h))).groundY
                ((cloneWorldRuntime 2 (some (w2NextBaseY h))).groundY -
                  room.worldRuntime.groundY) e.2)) } } := by
      unfold syncRoomWorld2Height
      rw [if_neg hne, normalize_payload_eq payload h hv hh]
      show (if |w2NextBaseY h - room.world2BaseY| < 2 then room else _) = _
      rw [if_neg hnlt]
    rw [hpost]
    refine ⟨rfl, rfl, ?_⟩
    intro e he
    have hng : (cloneWorldRuntime 2 (some (w2NextBaseY h))).groundY =
        w2NextBaseY h + 40 := rfl
    refine ⟨_, List.mem_map_of_mem _ he, ?_⟩
    show (syncPlayerGroundShift (cloneWorldRuntime 2 (some (w2NextBaseY h))).width
      (cloneWorldRuntime 2 (some (w2NextBaseY h))).groundY
      ((cloneWorldRuntime 2 (some (w2NextBaseY h))).groundY -
        room.worldRuntime.groundY) e.2).y =
      e.2.y + ((w2NextBaseY h + 40) - room.worldRuntime.groundY)
    rw [hng]
    exact syncPlayerGroundShift_y _ room.worldRuntime.groundY (w2NextBaseY h)
      e.2 (hground e he)

/-- C7 (counterexample): a reported height of 50 would, per the claim,
give base `clamp(round(50)−80, 500, 1400) = 500`, which differs from the
previous base 820 by ≥ 2 and should rebuild the runtime — but the code
ignores any report below 100 and leaves the room entirely unchanged. -/
theorem syncRoomWorld2Height_small_height_ignored :
    demoRoomW2.world = 2 ∧
    payloadHeightValue ⟨some 50, none, none⟩ = some 50 ∧
    w2NextBaseY 50 = 500 ∧
    2 ≤ |w2NextBaseY 50 - demoRoomW2.world2BaseY| ∧
    syncRoomWorld2Height demoRoomW2 ⟨some 50, none, none⟩ = demoRoomW2 := by
  have hnb : w2NextBaseY 50 = 500 := by
    norm_num [w2NextBaseY, clamp, min_def, max_def]
  refine ⟨rfl, rfl, hnb, ?_, rfl⟩
  rw [hnb]
  show (2:ℚ) ≤ |500 - 820|
  norm_num

/-- C7 (witness): a height report of 600 on `demoRoomW2`. -/
theorem syncRoomWorld2Height_spec_witness :
    (100:ℚ) ≤ 600 ∧
    ((|w2NextBaseY 600 - demoRoomW2.world2BaseY| < 2 →
       syncRoomWorld2Height demoRoomW2 ⟨some 600, none, none⟩ = demoRoomW2) ∧
     (2 ≤ |w2NextBaseY 600 - demoRoomW2.world2BaseY| →
       (syncRoomWorld2Height demoRoomW2 ⟨some 600, none, none⟩).world2BaseY =
         w2NextBaseY 600 ∧
       (syncRoomWorld2Height demoRoomW2 ⟨some 600, none, none⟩).worldRuntime =
         cloneWorldRuntime 2 (some (w2NextBaseY 600)) ∧
       (∀ e ∈ demoRoomW2.gameState.players,
         ∃ p, (e.1, p) ∈ (syncRoomWorld2Height demoRoomW2
             ⟨some 600, none, none⟩).gameState.players ∧
           p.y = e.2.y + ((w2NextBaseY 600 + 40) -
             demoRoomW2.worldRuntime.groundY)))) := by
  refine ⟨by norm_num, syncRoomWorld2Height_spec demoRoomW2
    ⟨some 600, none, none⟩ 600 rfl rfl (by norm_num) ?_⟩
  intro e he
  have hone : e = ("A", demoPlayer) := by
    simpa [demoRoomW2, demoRoom] using he
  subst hone
  norm_num [demoPlayer, PLAYER_HEIGHT, demoRoomW2, demoRoom, demoWorld]

theorem clamp_le_hi {n lo hi : ℚ} (h : lo ≤ hi) : clamp n lo hi ≤ hi := by
  unfold clamp
  exact max_le h (min_le_left _ _)

theorem lo_le_clamp (n lo hi : ℚ) : lo ≤ clamp n lo hi := le_max_left _ _

theorem createPlayerGameState_kin (mfs : ℚ) (hmfs : 0 ≤ mfs)
    (pid : String) (slot : Nat) (room : Room) :
    kinInv mfs (createPlayerGameState pid slot room) :=
  ⟨hmfs, fun _ => rfl⟩

theorem ensureFixups_fields (room : Room) (slot : Nat) (pid : String)
    (p : PlayerState) :
    (ensureFixups room slot pid p).vy = p.vy ∧
    (ensureFixups room slot pid p).onGround = p.onGround ∧
    (ensureFixups room slot pid p).dead = p.dead ∧
    (ensureFixups room slot pid p).width = PLAYER_WIDTH ∧
    (ensureFixups room slot pid p).x =
      clamp p.x 0 (room.worldRuntime.width - PLAYER_WIDTH) :=
  ⟨rfl, rfl, rfl, rfl, rfl⟩

theorem ensureFixups_kin (room : Room) (slot : Nat) (pid : String)
    {mfs : ℚ} {p : PlayerState} (h : kinInv mfs p) :
    kinInv mfs (ensureFixups room slot pid p) := h

theorem ensureBase_kin (room : Room) (pid : String)
    (hmfs : 0 ≤ room.worldRuntime.maxFallSpeed) (hk : roomKinInv room) :
    ∀ e ∈ ensureBase room pid, kinInv room.worldRuntime.maxFallSpeed e.2 := by
  intro e he
  unfold ensureBase at he
  split at he
  · rcases mem_aset he with h1 | h2
    · rw [h1]
      exact createPlayerGameState_kin _ hmfs _ _ _
    · exact hk e h2
  · exact hk e he

theorem ensurePlayerState_frame (room : Room) (pid : String) :
    (ensurePlayerState room pid).1 =
      { room with gameState := { room.gameState with
          players := (ensurePlayerState room pid).1.gameState.players } } := by
  simp only [ensurePlayerState]
  split
  · rfl
  · split
    · rfl
    · rfl

theorem ensurePlayerState_players_char (room : Room) (pid : String) :
    (∀ e ∈ (ensurePlayerState room pid).1.gameState.players,
       e ∈ room.gameState.players ∨ e ∈ ensureBase room pid ∨
       ∃ p0, List.lookup pid (ensureBase room pid) = some p0 ∧
         e.2 = ensureFixups room (playerIndexOf room pid) pid p0) ∧
    ((ensurePlayerState room pid).2 = none ∨
      ∃ p0, List.lookup pid (ensureBase room pid) = some p0 ∧
        (ensurePlayerState room pid).2 =
          some (ensureFixups room (playerIndexOf room pid) pid p0)) := by
  simp only [ensurePlayerState]
  split
  · exact ⟨fun e he => Or.inl he, Or.inl rfl⟩
  · split
    · exact ⟨fun e he => Or.inr (Or.inl he), Or.inl rfl⟩
    · next p0 heq =>
        constructor
        · intro e he
          rcases mem_aset he with h1 | h2
          · exact Or.inr (Or.inr ⟨p0, heq, by rw [h1]⟩)
          · exact Or.inr (Or.inl h2)
        · exact Or.inr ⟨p0, heq, rfl⟩

theorem ensurePlayerState_proj (room : Room) (pid : String) :
    (ensurePlayerState room pid).1.worldRuntime = room.worldRuntime ∧
    (ensurePlayerState room pid).1.players = room.players ∧
    (ensurePlayerState room pid).1.playerOrder = room.playerOrder ∧
    (ensurePlayerState room pid).1.inputs = room.inputs ∧
    (ensurePlayerState room pid).1.started = room.started ∧
    (ensurePlayerState room pid).1.deadUntil = room.deadUntil ∧
    (ensurePlayerState room pid).1.gameState.gameStatus =
      room.gameState.gameStatus ∧
    (ensurePlayerState room pid).1.gameState.keyCollected =
      room.gameState.keyCollected ∧
    (ensurePlayerState room pid).1.world = room.world ∧
    (ensurePlayerState room pid).1.world2BaseY = room.world2BaseY ∧
    (ensurePlayerState room pid).1.lastStepAt = room.lastStepAt := by
  refine ⟨?_, ?_, ?_, ?_, ?_, ?_, ?_, ?_, ?_, ?_, ?_⟩ <;>
    rw [ensurePlayerState_frame room pid]

theorem ensurePlayerState_kin (room : Room) (pid : String)
    (hmfs : 0 ≤ room.worldRuntime.maxFallSpeed) (hk : roomKinInv room) :
    roomKinInv (ensurePlayerState room pid).1 := by
  intro e he
  rw [(ensurePlayerState_proj room pid).1]
  rcases (ensurePlayerState_players_char room pid).1 e he with
    h1 | h2 | ⟨p0, hlk, he2⟩
  · exact hk e h1
  · exact ensureBase_kin room pid hmfs hk e h2
  · rw [he2]
    exact ensureFixups_kin _ _ _
      (ensureBase_kin room pid hmfs hk _ (lookup_mem hlk))

theorem ensurePlayerState_some_kin (room : Room) (pid : String)
    (p : PlayerState)
    (hmfs : 0 ≤ room.worldRuntime.maxFallSpeed) (hk : roomKinInv room)
    (hp : (ensurePlayerState room pid).2 = some p) :
    kinInv room.worldRuntime.maxFallSpeed p ∧ p.width = PLAYER_WIDTH ∧
    (45 ≤ room.worldRuntime.width →
      0 ≤ p.x ∧ p.x ≤ room.worldRuntime.width - p.width) := by
  rcases (ensurePlayerState_players_char room pid).2 with hnone | ⟨p0, hlk, hsome⟩
  · rw [hp] at hnone; cases hnone
  · rw [hp] at hsome
    have hpe : p = ensureFixups room (playerIndexOf room pid) pid p0 :=
      Option.some.injEq .. ▸ hsome
    have hkin0 : kinInv room.worldRuntime.maxFallSpeed p0 :=
      ensureBase_kin room pid hmfs hk _ (lookup_mem hlk)
    obtain ⟨hvy, hog, hdead, hwidth, hx⟩ :=
      ensureFixups_fields room (playerIndexOf room pid) pid p0
    subst hpe
    refine ⟨ensureFixups_kin _ _ _ hkin0, hwidth, ?_⟩
    intro hw
    have hle : (0:ℚ) ≤ room.worldRuntime.width - PLAYER_WIDTH := by
      show (0:ℚ) ≤ room.worldRuntime.width - 45
      linarith
    rw [hx, hwidth]
    exact ⟨lo_le_clamp _ _ _, clamp_le_hi hle⟩

theorem vstepPlat_kin {mfs : ℚ} (hmfs : 0 ≤ mfs) (world : WorldRuntime)
    (prevY prevBottom : ℚ) (st : PlayerState × List FallingPlatform)
    (plat : CollPlat) (h : kinInv mfs st.1) :
    kinInv mfs (vstepPlat world prevY prevBottom st plat).1 := by
  obtain ⟨p, fps⟩ := st
  simp only [vstepPlat]
  split
  · exact h
  · split
    · exact ⟨hmfs, fun _ => rfl⟩
    · split
      · exact ⟨hmfs, fun _ => rfl⟩
      · exact h

theorem foldl_vstepPlat_kin {mfs : ℚ} (hmfs : 0 ≤ mfs) (world : WorldRuntime)
    (prevY prevBottom : ℚ) (plats : List CollPlat) :
    ∀ st : PlayerState × List FallingPlatform, kinInv mfs st.1 →
    kinInv mfs (plats.foldl (vstepPlat world prevY prevBottom) st).1 := by
  induction plats with
  | nil => intro st h; exact h
  | cons a t ih =>
    intro st h
    exact ih _ (vstepPlat_kin hmfs world prevY prevBottom st a h)

theorem stepVertical_kin (world : WorldRuntime)
    (hmfs : 0 ≤ world.maxFallSpeed) (plats : List CollPlat) (dtScale : ℚ)
    (player : PlayerState) :
    kinInv world.maxFallSpeed (stepVertical world plats dtScale player).1 := by
  simp only [stepVertical]
  apply foldl_vstepPlat_kin hmfs
  exact ⟨min_le_right _ _, fun hog => by cases hog⟩

theorem stepFloor_kin {mfs : ℚ} (hmfs : 0 ≤ mfs) (world : WorldRuntime)
    (player : PlayerState)
    (h : kinInv mfs player) : kinInv mfs (stepFloor world player) := by
  simp only [stepFloor]
  split
  · exact ⟨hmfs, fun _ => rfl⟩
  · exact h

theorem stepCarry_fields (world : WorldRuntime) (player : PlayerState) :
    (stepCarry world player).vy = player.vy ∧
    (stepCarry world player).onGround = player.onGround := by
  simp only [stepCarry]
  split
  · split
    · exact ⟨rfl, rfl⟩
    · exact ⟨rfl, rfl⟩
  · exact ⟨rfl, rfl⟩

theorem stepCarry_kin {mfs : ℚ} (world : WorldRuntime) (player : PlayerState)
    (h : kinInv mfs player) : kinInv mfs (stepCarry world player) := by
  obtain ⟨h1, h2⟩ := stepCarry_fields world player
  exact ⟨h1 ▸ h.1, fun hog => h1 ▸ h.2 (h2 ▸ hog)⟩

theorem pvpStep_kin {mfs : ℚ} (hmfs : 0 ≤ mfs) (worldWidth : ℚ)
    (selfId : String) (self : PlayerState) (entry : String × PlayerState)
    (h : kinInv mfs self) : kinInv mfs (pvpStep worldWidth selfId self entry) := by
  obtain ⟨otherId, other⟩ := entry
  simp only [pvpStep]
  split
  · exact h
  · split
    · exact h
    · split
      · exact ⟨h.1, fun hog => h.2 hog⟩
      · split
        · exact ⟨hmfs, fun _ => rfl⟩
        · split
          · exact ⟨hmfs, fun _ => rfl⟩
          · split
            · exact ⟨hmfs, fun _ => rfl⟩
            · exact h

theorem foldl_pvpStep_kin {mfs : ℚ} (hmfs : 0 ≤ mfs) (worldWidth : ℚ)
    (selfId : String) (entries : List (String × PlayerState)) :
    ∀ self : PlayerState, kinInv mfs self →
    kinInv mfs (entries.foldl (pvpStep worldWidth selfId) self) := by
  induction entries with
  | nil => intro s h; exact h
  | cons a t ih =>
    intro s h
    exact ih _ (pvpStep_kin hmfs worldWidth selfId s a h)

theorem ensureBase_lookup_kin (r : Room) (pid : String)
    (hmfs : 0 ≤ r.worldRuntime.maxFallSpeed)
    (hself : ∀ q, List.lookup pid r.gameState.players = some q →
      kinInv r.worldRuntime.maxFallSpeed q) :
    ∀ p0, List.lookup pid (ensureBase r pid) = some p0 →
      kinInv r.worldRuntime.maxFallSpeed p0 := by
  intro p0 h
  unfold ensureBase at h
  split at h
  · rw [lookup_aset_self] at h
    rw [← Option.some.inj h]
    exact createPlayerGameState_kin _ hmfs _ _ _
  · exact hself p0 h

theorem ensurePlayerState_lookup_ne (r : Room) (pid pid' : String)
    (hne : pid' ≠ pid) :
    List.lookup pid' (ensurePlayerState r pid).1.gameState.players =
      List.lookup pid' r.gameState.players := by
  have hbase : List.lookup pid' (ensureBase r pid) =
      List.lookup pid' r.gameState.players := by
    unfold ensureBase
    split
    · exact lookup_aset_ne _ _ _ _ hne
    · rfl
  simp only [ensurePlayerState]
  split
  · rfl
  · split
    · exact hbase
    · show List.lookup pid' (aset (ensureBase r pid) pid _) = _
      rw [lookup_aset_ne _ _ _ _ hne]
      exact hbase

theorem ensure_lookup_self_kin (r : Room) (pid : String)
    (hmfs : 0 ≤ r.worldRuntime.maxFallSpeed)
    (hself : ∀ q, List.lookup pid r.gameState.players = some q →
      kinInv r.worldRuntime.maxFallSpeed q) :
    ∀ p', List.lookup pid (ensurePlayerState r pid).1.gameState.players =
        some p' → kinInv r.worldRuntime.maxFallSpeed p' := by
  intro p' hlk
  simp only [ensurePlayerState] at hlk
  split at hlk
  · exact hself p' hlk
  · split at hlk
    · next heq =>
        have hlk' : List.lookup pid (ensureBase r pid) = some p' := hlk
        rw [heq] at hlk'
        cases hlk'
    · next p0 heq =>
        have hlk' : List.lookup pid (aset (ensureBase r pid) pid
          (ensureFixups r (playerIndexOf r pid) pid p0)) = some p' := hlk
        rw [lookup_aset_self] at hlk'
        rw [← Option.some.inj hlk']
        exact ensureFixups_kin _ _ _ (ensureBase_lookup_kin r pid hmfs hself p0 heq)

theorem ensure_some_lookup (r : Room) (pid : String) (p : PlayerState)
    (hp : (ensurePlayerState r pid).2 = some p) :
    List.lookup pid (ensurePlayerState r pid).1.gameState.players = some p := by
  simp only [ensurePlayerState] at hp ⊢
  split
  · rw [if_pos ‹_›] at hp
    cases hp
  · rw [if_neg ‹_›] at hp
    split
    · next heq =>
        simp only [heq] at hp
        cases hp
    · next p0 heq =>
        simp only [heq] at hp
        have hpe := Option.some.inj hp
        show List.lookup pid (aset (ensureBase r pid) pid _) = _
        rw [lookup_aset_self, hpe]

theorem ensure_some_shape (r : Room) (pid : String) (p : PlayerState)
    (hp : (ensurePlayerState r pid).2 = some p) :
    p.width = PLAYER_WIDTH ∧
    (45 ≤ r.worldRuntime.width →
      0 ≤ p.x ∧ p.x ≤ r.worldRuntime.width - p.width) := by
  simp only [ensurePlayerState] at hp
  split at hp
  · cases hp
  · split at hp
    · cases hp
    · next p0 heq =>
        have hpe := (Option.some.inj hp).symm
        obtain ⟨hvy, hog, hdead, hwidth, hx⟩ :=
          ensureFixups_fields r (playerIndexOf r pid) pid p0
        subst hpe
        refine ⟨hwidth, fun hw => ?_⟩
        have hle : (0:ℚ) ≤ r.worldRuntime.width - PLAYER_WIDTH := by
          show (0:ℚ) ≤ r.worldRuntime.width - 45
          linarith
        rw [hx, hwidth]
        exact ⟨lo_le_clamp _ _ _, clamp_le_hi hle⟩

theorem ensure_some_kin_of_self (r : Room) (pid : String) (p : PlayerState)
    (hmfs : 0 ≤ r.worldRuntime.maxFallSpeed)
    (hself : ∀ q, List.lookup pid r.gameState.players = some q →
      kinInv r.worldRuntime.maxFallSpeed q)
    (hp : (ensurePlayerState r pid).2 = some p) :
    kinInv r.worldRuntime.maxFallSpeed p :=
  ensure_lookup_self_kin r pid hmfs hself p (ensure_some_lookup r pid p hp)

theorem ensure_elig (r : Room) (pid : String)
    (hmfs : 0 ≤ r.worldRuntime.maxFallSpeed)
    (he : roomEligKinInv r) (hpid : pid ∈ r.playerOrder)
    (hsome : (List.lookup pid r.players).isSome = true) :
    roomEligKinInv (ensurePlayerState r pid).1 := by
  intro pid' hord' hsome' p' hlk'
  obtain ⟨hwr, hpl, hord, _⟩ := ensurePlayerState_proj r pid
  rw [hwr]
  rw [hord] at hord'
  rw [hpl] at hsome'
  by_cases hne : pid' = pid
  · subst hne
    exact ensure_lookup_self_kin r pid' hmfs
      (fun q hq => he pid' hord' hsome' q hq) p' hlk'
  · rw [ensurePlayerState_lookup_ne r pid pid' hne] at hlk'
    exact he pid' hord' hsome' p' hlk'

theorem resolvePlayerCollisions_proj (room : Room) (selfId : String) :
    (resolvePlayerCollisions room selfId).worldRuntime = room.worldRuntime ∧
    (resolvePlayerCollisions room selfId).players = room.players ∧
    (resolvePlayerCollisions room selfId).playerOrder = room.playerOrder ∧
    (resolvePlayerCollisions room selfId).inputs = room.inputs ∧
    (resolvePlayerCollisions room selfId).started = room.started ∧
    (resolvePlayerCollisions room selfId).deadUntil = room.deadUntil ∧
    (resolvePlayerCollisions room selfId).world = room.world ∧
    (resolvePlayerCollisions room selfId).world2BaseY = room.world2BaseY ∧
    (resolvePlayerCollisions room selfId).lastStepAt = room.lastStepAt := by
  unfold resolvePlayerCollisions
  split
  · exact ⟨rfl, rfl, rfl, rfl, rfl, rfl, rfl, rfl, rfl⟩
  · exact ⟨rfl, rfl, rfl, rfl, rfl, rfl, rfl, rfl, rfl⟩

theorem resolvePlayerCollisions_kin (room : Room) (selfId : String)
    (hmfs : 0 ≤ room.worldRuntime.maxFallSpeed) (hk : roomKinInv room) :
    roomKinInv (resolvePlayerCollisions room selfId) := by
  unfold resolvePlayerCollisions
  split
  · exact hk
  · next self0 heq =>
      intro e he
      rcases mem_aset he with h1 | h2
      · rw [h1]
        exact foldl_pvpStep_kin hmfs _ _ _ _ (hk _ (lookup_mem heq))
      · exact hk e h2

theorem applyPlayerStep_spec (pw : ℚ → ℚ → ℚ) (now : ℚ) (room : Room)
    (pid : String) (dt : ℚ)
    (hmfs : 0 ≤ room.worldRuntime.maxFallSpeed) (hk : roomKinInv room) :
    roomKinInv (applyPlayerStep pw now room pid dt) ∧
    (applyPlayerStep pw now room pid dt).players = room.players ∧
    (applyPlayerStep pw now room pid dt).playerOrder = room.playerOrder ∧
    (applyPlayerStep pw now room pid dt).worldRuntime.maxFallSpeed =
      room.worldRuntime.maxFallSpeed ∧
    (applyPlayerStep pw now room pid dt).worldRuntime.width =
      room.worldRuntime.width := by
  obtain ⟨hwr, hpl, hord, hinp, hst, hdu, hgs, hkc, hwld, hw2, hls⟩ :=
    ensurePlayerState_proj room pid
  have hkin1 : roomKinInv (ensurePlayerState room pid).1 :=
    ensurePlayerState_kin room pid hmfs hk
  simp only [applyPlayerStep]
  rcases hens : ensurePlayerState room pid with ⟨r1, popt⟩
  rw [hens] at hwr hpl hord hkin1
  cases popt with
  | none => exact ⟨hkin1, hpl, hord, by rw [hwr], by rw [hwr]⟩
  | some player =>
    dsimp only
    by_cases hdead : player.dead = true
    · rw [if_pos hdead]
      exact ⟨hkin1, hpl, hord, by rw [hwr], by rw [hwr]⟩
    · rw [if_neg hdead]
      have hkin1' : ∀ e ∈ r1.gameState.players,
          kinInv room.worldRuntime.maxFallSpeed e.2 := by
        intro e he
        have hh := hkin1 e he
        rwa [hwr] at hh
      refine ⟨?_, ?_, ?_, ?_, ?_⟩
      · refine resolvePlayerCollisions_kin _ pid ?_ ?_
        · exact hmfs
        · intro e he
          rcases mem_aset he with h1 | h2
          · rw [h1]
            show kinInv room.worldRuntime.maxFallSpeed _
            split
            · exact stepCarry_kin _ _ (stepFloor_kin hmfs _ _
                (stepVertical_kin _ hmfs _ _ _))
            · exact stepCarry_kin _ _ (stepFloor_kin hmfs _ _
                (stepVertical_kin _ hmfs _ _ _))
          · exact hkin1' e h2
      · exact ((resolvePlayerCollisions_proj _ pid).2.1).trans hpl
      · exact ((resolvePlayerCollisions_proj _ pid).2.2.1).trans hord
      · exact (congrArg WorldRuntime.maxFallSpeed
          (resolvePlayerCollisions_proj _ pid).1).trans (by rw [← hwr])
      · exact (congrArg WorldRuntime.width
          (resolvePlayerCollisions_proj _ pid).1).trans (by rw [← hwr])

theorem updateWorldRuntime_spec (room : Room) (dt : ℚ) :
    (updateWorldRuntime room dt).gameState = room.gameState ∧
    (updateWorldRuntime room dt).players = room.players ∧
    (updateWorldRuntime room dt).playerOrder = room.playerOrder ∧
    (updateWorldRuntime room dt).worldRuntime.maxFallSpeed =
      room.worldRuntime.maxFallSpeed ∧
    (updateWorldRuntime room dt).worldRuntime.width =
      room.worldRuntime.width ∧
    (roomKinInv room → roomKinInv (updateWorldRuntime room dt)) := by
  refine ⟨rfl, rfl, rfl, rfl, rfl, fun hk e he => hk e he⟩

theorem cloneWorldRuntime_facts (n : Nat) (b : Option ℚ) :
    (cloneWorldRuntime n b).maxFallSpeed = BASE_MAX_FALL_SPEED ∧
    45 ≤ (cloneWorldRuntime n b).width := by
  unfold cloneWorldRuntime getWorld
  split
  · exact ⟨rfl, by norm_num [buildWorld2Runtime]⟩
  · exact ⟨rfl, by norm_num [WORLDS1]⟩

theorem base_max_fall_speed_nonneg : (0:ℚ) ≤ BASE_MAX_FALL_SPEED := by
  norm_num [BASE_MAX_FALL_SPEED]

theorem lookup_resetfold_not_mem (room1 : Room) (l : List String)
    (pid : String) (h : pid ∉ l) :
    ∀ acc : List (String × PlayerState),
      List.lookup pid (l.foldl (fun acc q =>
        if (List.lookup q room1.players).isSome then
          aset acc q (createPlayerGameState q (playerIndexOf room1 q) room1)
        else acc) acc) = List.lookup pid acc := by
  induction l with
  | nil => intro acc; rfl
  | cons a t ih =>
    intro acc
    have hpa : pid ≠ a := fun hc => h (hc ▸ List.mem_cons_self _ _)
    have hpt : pid ∉ t := fun hc => h (List.mem_cons_of_mem _ hc)
    simp only [List.foldl_cons]
    rw [ih hpt]
    split
    · exact lookup_aset_ne _ _ _ _ hpa
    · rfl

theorem lookup_resetfold_elig (room1 : Room) (l : List String) (pid : String)
    (hmem : pid ∈ l) (hsome : (List.lookup pid room1.players).isSome = true) :
    ∀ acc : List (String × PlayerState),
      List.lookup pid (l.foldl (fun acc q =>
        if (List.lookup q room1.players).isSome then
          aset acc q (createPlayerGameState q (playerIndexOf room1 q) room1)
        else acc) acc) =
      some (createPlayerGameState pid (playerIndexOf room1 pid) room1) := by
  induction l with
  | nil => cases hmem
  | cons a t ih =>
    intro acc
    simp only [List.foldl_cons]
    by_cases hpt : pid ∈ t
    · exact ih hpt _
    · have hpa : pid = a := by
        rcases List.mem_cons.mp hmem with h1 | h2
        · exact h1
        · exact absurd h2 hpt
      subst hpa
      rw [lookup_resetfold_not_mem room1 t pid hpt]
      rw [if_pos hsome, lookup_aset_self]

theorem resetRoundAfterDeath_elig (room : Room) :
    roomEligKinInv (resetRoundAfterDeath room) := by
  intro pid hord hsome p hlk
  have hmfs18 : (resetRoundAfterDeath room).worldRuntime.maxFallSpeed =
      BASE_MAX_FALL_SPEED :=
    (cloneWorldRuntime_facts room.world (some room.world2BaseY)).1
  rw [hmfs18]
  have hlk2 := lookup_resetfold_elig (resetBaseRoom room) room.playerOrder pid
    hord hsome room.gameState.players
  have hpe : some (createPlayerGameState pid
      (playerIndexOf (resetBaseRoom room) pid) (resetBaseRoom room)) = some p :=
    hlk2.symm.trans hlk
  rw [← Option.some.inj hpe]
  exact createPlayerGameState_kin _ base_max_fall_speed_nonneg _ _ _

theorem evaluateGameState_elig (now : ℚ) (room : Room) (hk : roomKinInv room) :
    roomEligKinInv (evaluateGameState now room) ∧
    (45 ≤ room.worldRuntime.width →
      45 ≤ (evaluateGameState now room).worldRuntime.width) ∧
    (0 ≤ room.worldRuntime.maxFallSpeed →
      0 ≤ (evaluateGameState now room).worldRuntime.maxFallSpeed) := by
  have hofk : roomEligKinInv room := fun pid _ _ p hlk => hk _ (lookup_mem hlk)
  unfold evaluateGameState
  split
  · split
    · refine ⟨resetRoundAfterDeath_elig room, fun _ => ?_, fun _ => ?_⟩
      · exact (cloneWorldRuntime_facts room.world (some room.world2BaseY)).2
      · rw [show (resetRoundAfterDeath room).worldRuntime.maxFallSpeed =
            BASE_MAX_FALL_SPEED from
            (cloneWorldRuntime_facts room.world (some room.world2BaseY)).1]
        exact base_max_fall_speed_nonneg
    · exact ⟨hofk, fun hh => hh, fun hh => hh⟩
  · dsimp only
    split
    · exact ⟨fun pid ho hs p hlk => hofk pid ho hs p hlk,
        fun hh => hh, fun hh => hh⟩
    · split
      · split
        · exact ⟨fun pid ho hs p hlk => hofk pid ho hs p hlk,
            fun hh => hh, fun hh => hh⟩
        · exact ⟨fun pid ho hs p hlk => hofk pid ho hs p hlk,
            fun hh => hh, fun hh => hh⟩
      · exact ⟨fun pid ho hs p hlk => hofk pid ho hs p hlk,
          fun hh => hh, fun hh => hh⟩

theorem emitStep_inv (room0 : Room) (hw : 45 ≤ room0.worldRuntime.width)
    (hmfs : 0 ≤ room0.worldRuntime.maxFallSpeed) (pid : String)
    (hpid : pid ∈ room0.playerOrder) (r : Room)
    (acc : List (String × PlayerState))
    (hwr : r.worldRuntime = room0.worldRuntime) (hpl : r.players = room0.players)
    (hord : r.playerOrder = room0.playerOrder) (he : roomEligKinInv r)
    (hacc : ∀ e ∈ acc, snapshotInv room0.worldRuntime e.2) :
    (emitStep (r, acc) pid).1.worldRuntime = room0.worldRuntime ∧
    (emitStep (r, acc) pid).1.players = room0.players ∧
    (emitStep (r, acc) pid).1.playerOrder = room0.playerOrder ∧
    roomEligKinInv (emitStep (r, acc) pid).1 ∧
    (∀ e ∈ (emitStep (r, acc) pid).2, snapshotInv room0.worldRuntime e.2) := by
  simp only [emitStep]
  split
  · exact ⟨hwr, hpl, hord, he, hacc⟩
  · next hnn =>
      have hsome : (List.lookup pid r.players).isSome = true := by
        cases hopt : List.lookup pid r.players with
        | none => rw [hopt] at hnn; exact absurd rfl hnn
        | some q => rfl
      have hmfs' : 0 ≤ r.worldRuntime.maxFallSpeed := by rw [hwr]; exact hmfs
      have hw' : 45 ≤ r.worldRuntime.width := by rw [hwr]; exact hw
      have hpid' : pid ∈ r.playerOrder := by rw [hord]; exact hpid
      have hself : ∀ q, List.lookup pid r.gameState.players = some q →
          kinInv r.worldRuntime.maxFallSpeed q :=
        fun q hq => he pid hpid' hsome q hq
      obtain ⟨pwr, ppl, pord, _⟩ := ensurePlayerState_proj r pid
      have helig := ensure_elig r pid hmfs' he hpid' hsome
      split
      · next r' p hens =>
          have h1 : (ensurePlayerState r pid).1 = r' := by rw [hens]
          have h2 : (ensurePlayerState r pid).2 = some p := by rw [hens]
          refine ⟨?_, ?_, ?_, ?_, ?_⟩
          · rw [← h1, pwr, hwr]
          · rw [← h1, ppl, hpl]
          · rw [← h1, pord, hord]
          · rw [← h1]; exact helig
          · intro e hme
            rcases mem_aset hme with hme1 | hme2
            · rw [hme1]
              have hkin := ensure_some_kin_of_self r pid p hmfs' hself h2
              have hshape := ensure_some_shape r pid p h2
              obtain ⟨hx0, hx1⟩ := hshape.2 hw'
              rw [hwr] at hx1 hkin
              exact ⟨hx0, hx1, hkin.1, hkin.2⟩
            · exact hacc e hme2
      · next r' hens =>
          have h1 : (ensurePlayerState r pid).1 = r' := by rw [hens]
          refine ⟨?_, ?_, ?_, ?_, hacc⟩
          · rw [← h1, pwr, hwr]
          · rw [← h1, ppl, hpl]
          · rw [← h1, pord, hord]
          · rw [← h1]; exact helig

theorem emit_foldl_inv (room0 : Room) (hw : 45 ≤ room0.worldRuntime.width)
    (hmfs : 0 ≤ room0.worldRuntime.maxFallSpeed) (l : List String)
    (hsub : ∀ pid ∈ l, pid ∈ room0.playerOrder) :
    ∀ (r : Room) (acc : List (String × PlayerState)),
      r.worldRuntime = room0.worldRuntime → r.players = room0.players →
      r.playerOrder = room0.playerOrder → roomEligKinInv r →
      (∀ e ∈ acc, snapshotInv room0.worldRuntime e.2) →
      (l.foldl emitStep (r, acc)).1.worldRuntime = room0.worldRuntime ∧
      (∀ e ∈ (l.foldl emitStep (r, acc)).2, snapshotInv room0.worldRuntime e.2) := by
  induction l with
  | nil => intro r acc hwr _ _ _ hacc; exact ⟨hwr, hacc⟩
  | cons a t ih =>
    intro r acc hwr hpl hord he hacc
    simp only [List.foldl_cons]
    obtain ⟨e1, e2, e3, e4, e5⟩ := emitStep_inv room0 hw hmfs a
      (hsub a (List.mem_cons_self _ _)) r acc hwr hpl hord he hacc
    have hst : emitStep (r, acc) a =
        ((emitStep (r, acc) a).1, (emitStep (r, acc) a).2) := rfl
    rw [hst]
    exact ih (fun pid hp => hsub pid (List.mem_cons_of_mem _ hp))
      (emitStep (r, acc) a).1 (emitStep (r, acc) a).2 e1 e2 e3 e4 e5

theorem emitGameStatePass_inv (room : Room)
    (hw : 45 ≤ room.worldRuntime.width)
    (hmfs : 0 ≤ room.worldRuntime.maxFallSpeed)
    (he : roomEligKinInv room) :
    ∀ e ∈ (emitGameStatePass room).gameState.players,
      snapshotInv (emitGameStatePass room).worldRuntime e.2 := by
  obtain ⟨h1, h2⟩ := emit_foldl_inv room hw hmfs room.playerOrder
    (fun _ h => h) room [] rfl rfl rfl he (fun e h => absurd h (List.not_mem_nil e))
  intro e he2
  have he2' : e ∈ (room.playerOrder.foldl emitStep (room, [])).2 := he2
  have hs := h2 e he2'
  have hwr : (emitGameStatePass room).worldRuntime = room.worldRuntime := h1
  rw [hwr]
  exact hs

theorem step_foldl_spec (pw : ℚ → ℚ → ℚ) (now dt : ℚ) (l : List String) :
    ∀ r : Room, 0 ≤ r.worldRuntime.maxFallSpeed → roomKinInv r →
      roomKinInv (l.foldl (fun r pid =>
        if (List.lookup pid r.players).isSome then
          applyPlayerStep pw now r pid dt else r) r) ∧
      (l.foldl (fun r pid =>
        if (List.lookup pid r.players).isSome then
          applyPlayerStep pw now r pid dt else r) r).worldRuntime.maxFallSpeed =
        r.worldRuntime.maxFallSpeed ∧
      (l.foldl (fun r pid =>
        if (List.lookup pid r.players).isSome then
          applyPlayerStep pw now r pid dt else r) r).worldRuntime.width =
        r.worldRuntime.width := by
  induction l with
  | nil => intro r _ hk; exact ⟨hk, rfl, rfl⟩
  | cons a t ih =>
    intro r hmfs hk
    simp only [List.foldl_cons]
    by_cases hs : (List.lookup a r.players).isSome = true
    · rw [if_pos hs]
      obtain ⟨k1, _, _, k4, k5⟩ := applyPlayerStep_spec pw now r a dt hmfs hk
      obtain ⟨j1, j2, j3⟩ := ih (applyPlayerStep pw now r a dt)
        (by rw [k4]; exact hmfs) k1
      exact ⟨j1, j2.trans k4, j3.trans k5⟩
    · rw [if_neg hs]
      exact ih r hmfs hk

/-- C1: one driver tick (`stepRoom`) on a started room whose runtime has
a sane geometry (`width ≥ 45`, `maxFallSpeed ≥ 0`) and whose players
already satisfy the kinematic invariant produces a snapshot in which
every published player `p` satisfies `0 ≤ p.x ≤ world.width − p.width`,
`p.vy ≤ world.maxFallSpeed`, and `p.onGround → p.vy = 0`. -/
theorem stepRoom_snapshot_inv (pw : ℚ → ℚ → ℚ) (now : ℚ) (room : Room)
    (hst : room.started = true)
    (hw : 45 ≤ room.worldRuntime.width)
    (hmfs : 0 ≤ room.worldRuntime.maxFallSpeed)
    (hk : roomKinInv room) :
    ∀ e ∈ (stepRoom pw now room).gameState.players,
      snapshotInv (stepRoom pw now room).worldRuntime e.2 := by
  unfold stepRoom
  rw [if_neg (by rw [hst]; exact fun hc => hc rfl)]
  dsimp only
  set r1 : Room := { room with lastStepAt := now } with hr1
  set dts : ℚ := clamp ((if room.lastStepAt ≠ 0 then now - room.lastStepAt
    else 1000 / TICK_RATE) / (1000 / TICK_RATE)) (1/2) (5/2) with hdts
  have hk1 : roomKinInv r1 := fun e he => hk e he
  have hmfs1 : 0 ≤ r1.worldRuntime.maxFallSpeed := hmfs
  have hw1 : 45 ≤ r1.worldRuntime.width := hw
  obtain ⟨u1, u2, u3, u4, u5, u6⟩ := updateWorldRuntime_spec r1 dts
  set r2 : Room := updateWorldRuntime r1 dts with hr2
  have hk2 : roomKinInv r2 := u6 hk1
  have hmfs2 : 0 ≤ r2.worldRuntime.maxFallSpeed := by rw [u4]; exact hmfs1
  have hw2 : 45 ≤ r2.worldRuntime.width := by rw [u5]; exact hw1
  obtain ⟨f1, f2, f3⟩ := step_foldl_spec pw now dts r2.playerOrder r2 hmfs2 hk2
  set r3 : Room := r2.playerOrder.foldl (fun r pid =>
    if (List.lookup pid r.players).isSome = true then
      applyPlayerStep pw now r pid dts else r) r2 with hr3
  have hmfs3 : 0 ≤ r3.worldRuntime.maxFallSpeed := by rw [f2]; exact hmfs2
  have hw3 : 45 ≤ r3.worldRuntime.width := by rw [f3]; exact hw2
  obtain ⟨g1, g2, g3⟩ := evaluateGameState_elig now r3 f1
  exact emitGameStatePass_inv (evaluateGameState now r3) (g2 hw3) (g3 hmfs3) g1

/-- C1 (witness): one tick on the started `demoRoom`. -/
theorem stepRoom_snapshot_inv_witness :
    demoRoom.started = true ∧
    (∀ e ∈ (stepRoom (fun a _ => a) 1000 demoRoom).gameState.players,
      snapshotInv (stepRoom (fun a _ => a) 1000 demoRoom).worldRuntime e.2) := by
  have hkd : roomKinInv demoRoom := by
    intro e he
    have hone : e = ("A", demoPlayer) := by simpa [demoRoom] using he
    subst hone
    exact ⟨by decide, fun _ => rfl⟩
  exact ⟨rfl, stepRoom_snapshot_inv (fun a _ => a) 1000 demoRoom rfl
    (by decide) (by decide) hkd⟩
